import Mathlib

/-!
# Heap tagging agent (`heapTagging/src/main/c/tagger.cpp`)

A shallow embedding of the JVMTI agent that tags objects with global references
and frees those references after the tagged object has been collected.

The agent's globals (`gdata`, `deleteQueue`, `gc_count`) and the part of the
virtual machine it talks to (the JVMTI tag map, the JNI global-reference table,
raw monitors) are one explicit `State`.  Every environment call is appended to
a call log, so that "how many times" and "in which order" are statements about
that log.  Native entry points and callbacks are functions `State → State`
executed atomically; the worker thread is cut at its only blocking point, the
`RawMonitorWait` call.

What the code cannot determine is an argument of the function that meets it:
* `ret`, the reference that `NewGlobalRef` hands out;
* `tag0`, the content of the local `jlong tag` before `GetTag` writes it (the
  variable is declared without an initial value);
* `err`, the result of `RawMonitorWait`.

Pointers are 64 bits wide, `jlong` is a signed 64-bit integer, `int` has 32 bits.
-/

namespace Tagger

/-! ## The environment: JVMTI and JNI -/

/-- JVMTI error codes (`jvmtiError`), by their numeric value in `jvmti.h`. -/
abbrev jvmtiError := Nat

abbrev JVMTI_ERROR_NONE : jvmtiError := 0
abbrev JVMTI_ERROR_INVALID_OBJECT : jvmtiError := 20
abbrev JVMTI_ERROR_WRONG_PHASE : jvmtiError := 112

/-- The three raw monitors created in `Agent_OnLoad`. -/
inductive Monitor
  | lock
  | gcLock
  | deleteQueueLock
  deriving DecidableEq, Repr

/-- One call from the agent into the virtual machine.  Objects, values and
global references are addresses (`0` is `NULL`), tags are `jlong`s. -/
inductive Call
  | GetTag (o : Nat)
  | SetTag (o : Nat) (tag : Int)
  | NewGlobalRef (expr : Nat) (ret : Nat)
  | DeleteGlobalRef (ref : Nat)
  | RawMonitorEnter (m : Monitor)
  | RawMonitorExit (m : Monitor)
  | RawMonitorWait (m : Monitor)
  | RawMonitorNotify (m : Monitor)
  deriving DecidableEq, Repr

/-- The virtual machine as the agent sees it.
* `wrongPhase`: the VM is in a phase in which `GetTag`/`SetTag` answer
  `JVMTI_ERROR_WRONG_PHASE`;
* `tags`: the JVMTI tag of every object (`0`: untagged);
* `globals`: the JNI global references that are alive;
* `danglingDeletes`: references handed to `DeleteGlobalRef` while not alive;
* `monitorError`: what `RawMonitorEnter/Exit/Notify` answer for a monitor;
* `log`: all calls made so far, oldest first. -/
structure JVM where
  wrongPhase : Bool
  tags : Nat → Int
  globals : List Nat
  danglingDeletes : List Nat
  monitorError : Monitor → jvmtiError
  log : List Call

/-- The cast `(jlong) (ptrdiff_t) (void*) p` with 64-bit pointers: the address
read as a signed 64-bit integer. -/
def ptrToTag (p : Nat) : Int :=
  if p % 2 ^ 64 < 2 ^ 63 then ((p % 2 ^ 64 : Nat) : Int)
  else ((p % 2 ^ 64 : Nat) : Int) - 2 ^ 64

/-- The cast `(jobject) (ptrdiff_t) tag` with 64-bit pointers: the low 64 bits of
the tag read as an address. -/
def tagToPtr (tag : Int) : Nat := (tag % 2 ^ 64).toNat

/-- Arithmetic on `int` wraps to 32 bits (two's complement). -/
def wrapInt32 (x : Int) : Int := (x + 2 ^ 31) % 2 ^ 32 - 2 ^ 31

/-- JVMTI `GetTag(o, &tag)`.  `tag` is what the caller's variable holds before
the call; it is returned untouched when the call fails.  A `NULL` object is
answered with `JVMTI_ERROR_INVALID_OBJECT`. -/
def JVM.GetTag (j : JVM) (o : Nat) (tag : Int) : JVM × jvmtiError × Int :=
  let j1 := { j with log := j.log ++ [Call.GetTag o] }
  if j.wrongPhase then (j1, JVMTI_ERROR_WRONG_PHASE, tag)
  else if o = 0 then (j1, JVMTI_ERROR_INVALID_OBJECT, tag)
  else (j1, JVMTI_ERROR_NONE, j.tags o)

/-- JVMTI `SetTag(o, tag)`. -/
def JVM.SetTag (j : JVM) (o : Nat) (tag : Int) : JVM × jvmtiError :=
  let j1 := { j with log := j.log ++ [Call.SetTag o tag] }
  if j.wrongPhase then (j1, JVMTI_ERROR_WRONG_PHASE)
  else if o = 0 then (j1, JVMTI_ERROR_INVALID_OBJECT)
  else ({ j1 with tags := Function.update j.tags o tag }, JVMTI_ERROR_NONE)

/-- JNI `NewGlobalRef(expr)`.  `ret` is the reference the VM hands out (`0`
when it is out of memory); `NewGlobalRef(NULL)` is `NULL`. -/
def JVM.NewGlobalRef (j : JVM) (expr : Nat) (ret : Nat) : JVM × Nat :=
  if expr = 0 ∨ ret = 0 then
    ({ j with log := j.log ++ [Call.NewGlobalRef expr 0] }, 0)
  else
    ({ j with globals := ret :: j.globals,
              log := j.log ++ [Call.NewGlobalRef expr ret] }, ret)

/-- JNI `DeleteGlobalRef(ref)`: the reference stops being alive.  Deleting
`NULL` does nothing; deleting a reference that is not alive is recorded. -/
def JVM.DeleteGlobalRef (j : JVM) (ref : Nat) : JVM :=
  let j1 := { j with log := j.log ++ [Call.DeleteGlobalRef ref] }
  if ref = 0 then j1
  else if ref ∈ j.globals then { j1 with globals := j.globals.erase ref }
  else { j1 with danglingDeletes := j.danglingDeletes ++ [ref] }

/-- JVMTI `RawMonitorEnter(m)`. -/
def JVM.RawMonitorEnter (j : JVM) (m : Monitor) : JVM × jvmtiError :=
  ({ j with log := j.log ++ [Call.RawMonitorEnter m] }, j.monitorError m)

/-- JVMTI `RawMonitorExit(m)`. -/
def JVM.RawMonitorExit (j : JVM) (m : Monitor) : JVM × jvmtiError :=
  ({ j with log := j.log ++ [Call.RawMonitorExit m] }, j.monitorError m)

/-- JVMTI `RawMonitorNotify(m)`. -/
def JVM.RawMonitorNotify (j : JVM) (m : Monitor) : JVM × jvmtiError :=
  ({ j with log := j.log ++ [Call.RawMonitorNotify m] }, j.monitorError m)

/-- The worker thread entering `RawMonitorWait(m, 0)`; the call returns later,
with an error code that `gcWorker_resume` takes as an argument. -/
def JVM.RawMonitorWait (j : JVM) (m : Monitor) : JVM :=
  { j with log := j.log ++ [Call.RawMonitorWait m] }

/-! ## The agent's state -/

/-- The fields of `GlobalAgentData` that the code reads. -/
structure GlobalAgentData where
  vm_is_started : Bool
  vmDead : Bool

/-- Where the `gcWorker` thread stands: at the head of its `for (;;)` loop,
blocked in `RawMonitorWait` (line 158), or returned (line 162). -/
inductive WorkerPC
  | loopTop
  | waiting
  | returned
  deriving DecidableEq, Repr

/-- The agent's globals together with the virtual machine.  `deleteQueue` is
the linked list from its head; `stdout` collects what `check_jvmti_error`
prints (error number and message). -/
structure State where
  gdata : GlobalAgentData
  deleteQueue : List Nat
  gc_count : Int
  worker : WorkerPC
  jvm : JVM
  stdout : List (Nat × String)

/-! ## The agent's code -/

/-- The function `check_jvmti_error`, lines 41-53: it prints the error number
(with its name, looked up by `GetErrorName`) and the message when `errnum` is
not `JVMTI_ERROR_NONE`, and does nothing else. -/
def check_jvmti_error (s : State) (errnum : jvmtiError) (str : String) : State :=
  if errnum ≠ JVMTI_ERROR_NONE then { s with stdout := s.stdout ++ [(errnum, str)] }
  else s

/-- The recurring pair `err = jvmti->F(m); check_jvmti_error(jvmti, err, str);`
for a raw-monitor call `F`. -/
def monitorCall (s : State) (F : JVM → Monitor → JVM × jvmtiError) (m : Monitor)
    (str : String) : State :=
  check_jvmti_error { s with jvm := (F s.jvm m).1 } (F s.jvm m).2 str

/-- The end of `setObjExpression`, lines 97-99, shared by both branches:
`if (error == JVMTI_ERROR_WRONG_PHASE) return; check_jvmti_error(...)`. -/
def setObjExpression_end (s : State) (error : jvmtiError) : State :=
  if error = JVMTI_ERROR_WRONG_PHASE then s
  else check_jvmti_error s error "Cannot set object tag"

/-- The native `setObjExpression(env, klass, o, expr)`, lines 73-100.  `tag0` is the
indeterminate initial content of the local `tag`, `ret` the reference that
`NewGlobalRef` hands out if it is called. -/
def setObjExpression (s : State) (o expr : Nat) (tag0 : Int) (ret : Nat) : State :=
  if s.gdata.vmDead then s
  else if o = 0 then s
  else if expr ≠ 0 then
    let g := s.jvm.GetTag o tag0
    let tag := g.2.2
    let jvm2 := if tag ≠ 0 then g.1.DeleteGlobalRef (tagToPtr tag) else g.1
    let n := jvm2.NewGlobalRef expr ret
    let t := n.1.SetTag o (ptrToTag n.2)
    setObjExpression_end { s with jvm := t.1 } t.2
  else
    let t := s.jvm.SetTag o 0
    setObjExpression_end { s with jvm := t.1 } t.2

/-- The native `getObjExpression(env, klass, o)`, lines 104-120: the new state and the
returned `jobject`.  `tag0` is the indeterminate initial content of `tag`. -/
def getObjExpression (s : State) (o : Nat) (tag0 : Int) : State × Nat :=
  if s.gdata.vmDead then (s, 0)
  else
    let g := s.jvm.GetTag o tag0
    let error := g.2.1
    let tag := g.2.2
    if error = JVMTI_ERROR_WRONG_PHASE then ({ s with jvm := g.1 }, 0)
    else
      let s1 := check_jvmti_error { s with jvm := g.1 } error "Cannot get object tag"
      if tag ≠ 0 then (s1, tagToPtr tag) else (s1, 0)

/-- The callback `cbObjectFree(jvmti_env, tag)`, lines 127-143. -/
def cbObjectFree (s : State) (tag : Int) : State :=
  if s.gdata.vmDead then s
  else if tag ≠ 0 then
    let s1 := monitorCall s JVM.RawMonitorEnter Monitor.deleteQueueLock "raw monitor enter"
    let s2 := { s1 with deleteQueue := tagToPtr tag :: s1.deleteQueue }
    monitorCall s2 JVM.RawMonitorExit Monitor.deleteQueueLock "raw monitor exit"
  else s

/-- The body of the loop `while (deleteQueue) { ... }` of `gcWorker`, lines
173-182, when `deleteQueue` points to the entry `obj` followed by `next`. -/
def gcWorker_drainStep (obj : Nat) (next : List Nat) (s : State) : State :=
  let s1 := monitorCall s JVM.RawMonitorEnter Monitor.deleteQueueLock "raw monitor enter"
  let s2 := { s1 with deleteQueue := next }
  let s3 := monitorCall s2 JVM.RawMonitorExit Monitor.deleteQueueLock "raw monitor exit"
  { s3 with jvm := s3.jvm.DeleteGlobalRef obj }

/-- The loop `while (deleteQueue) { ... }` of `gcWorker`, lines 171-183, run
on the queue `q` that `deleteQueue` points to. -/
def gcWorker_drain : List Nat → State → State
  | [], s => s
  | obj :: next, s => gcWorker_drain next (gcWorker_drainStep obj next s)

/-- The worker from the test of `while (gc_count == 0)` (line 157), holding
`gcLock`: it either blocks in `RawMonitorWait`, or resets the counter, leaves
the monitor, drains the queue and is back at the head of `for (;;)`. -/
def gcWorker_while (s : State) : State :=
  if s.gc_count = 0 then
    { s with jvm := s.jvm.RawMonitorWait Monitor.gcLock, worker := WorkerPC.waiting }
  else
    let s1 := { s with gc_count := 0 }
    let s2 := monitorCall s1 JVM.RawMonitorExit Monitor.gcLock "raw monitor exit"
    let s3 := gcWorker_drain s2.deleteQueue s2
    { s3 with worker := WorkerPC.loopTop }

/-- One iteration of `for (;;)` in `gcWorker` from its head (line 155), up to
the point where the thread blocks or the iteration ends. -/
def gcWorker (s : State) : State :=
  match s.worker with
  | WorkerPC.loopTop =>
    gcWorker_while (monitorCall s JVM.RawMonitorEnter Monitor.gcLock "raw monitor enter")
  | _ => s

/-- The blocked worker continues: `RawMonitorWait` returns `err` (lines 158-164). -/
def gcWorker_resume (s : State) (err : jvmtiError) : State :=
  match s.worker with
  | WorkerPC.waiting =>
    if err ≠ JVMTI_ERROR_NONE then
      let s1 := monitorCall s JVM.RawMonitorExit Monitor.gcLock "raw monitor wait"
      { s1 with worker := WorkerPC.returned }
    else gcWorker_while s
  | _ => s

/-- The callback `gc_finish(jvmti_env)`, lines 191-202; `gc_count++` is `int`
arithmetic. -/
def gc_finish (s : State) : State :=
  let s1 := monitorCall s JVM.RawMonitorEnter Monitor.gcLock "raw monitor enter"
  let s2 := { s1 with gc_count := wrapInt32 (s1.gc_count + 1) }
  let s3 := monitorCall s2 JVM.RawMonitorNotify Monitor.gcLock "raw monitor notify"
  monitorCall s3 JVM.RawMonitorExit Monitor.gcLock "raw monitor exit"

/-- The callback `callbackVMDeath`, lines 240-242. -/
def callbackVMDeath (s : State) : State :=
  { s with gdata := { s.gdata with vmDead := true } }

/-! ## Scenarios -/

/-- The collector reclaims object `o`: JVMTI posts `ObjectFree` with the tag of
`o` if that tag is not zero, and the object leaves the tag map. -/
def collect (s : State) (o : Nat) : State :=
  let tag := s.jvm.tags o
  let s1 := { s with jvm := { s.jvm with tags := Function.update s.jvm.tags o 0 } }
  if tag ≠ 0 then cbObjectFree s1 tag else s1

/-- The worker's next pass: it starts an iteration, or its wait returns
successfully. -/
def gcWorker_pass (s : State) : State :=
  match s.worker with
  | WorkerPC.loopTop => gcWorker s
  | WorkerPC.waiting => gcWorker_resume s JVMTI_ERROR_NONE
  | WorkerPC.returned => s

/-- The state after `Agent_OnLoad`, `cbVMStart` and `callbackVMInit`: nothing
tagged, no global reference, empty queue, the worker at the head of its loop. -/
def init : State :=
  { gdata := { vm_is_started := true, vmDead := false },
    deleteQueue := [],
    gc_count := 0,
    worker := WorkerPC.loopTop,
    jvm := { wrongPhase := false, tags := fun _ => 0, globals := [],
             danglingDeletes := [], monitorError := fun _ => JVMTI_ERROR_NONE, log := [] },
    stdout := [] }

/-- What can happen to the agent: a call of `setObjExpression` or
`getObjExpression`, the collection of an object, the end of a collection, the
worker starting an iteration, the worker's wait returning, and VM death. -/
inductive Op
  | set (o expr : Nat) (tag0 : Int) (ret : Nat)
  | get (o : Nat) (tag0 : Int)
  | free (o : Nat)
  | gcFinish
  | work
  | wake (err : jvmtiError)
  | death

/-- What one event does to the state. -/
def step (s : State) : Op → State
  | Op.set o expr tag0 ret => setObjExpression s o expr tag0 ret
  | Op.get o tag0 => (getObjExpression s o tag0).1
  | Op.free o => collect s o
  | Op.gcFinish => gc_finish s
  | Op.work => gcWorker s
  | Op.wake err => gcWorker_resume s err
  | Op.death => callbackVMDeath s

/-- The JNI contract for the reference a `set` receives from `NewGlobalRef`:
a 64-bit address that is not alive at that moment (the reference that the same
call has just deleted may be handed out again). -/
def Op.ok (s : State) : Op → Prop
  | Op.set o _ _ ret =>
    ret < 2 ^ 64 ∧ (ret ∈ s.jvm.globals → ret = tagToPtr (s.jvm.tags o))
  | _ => True

/-- The state after a sequence of events. -/
def run (s : State) : List Op → State
  | [] => s
  | op :: ops => run (step s op) ops

/-- Every `NewGlobalRef` of the run respects the JNI contract `Op.ok`. -/
def okRun (s : State) : List Op → Prop
  | [] => True
  | op :: ops => Op.ok s op ∧ okRun (step s op) ops

/-- The releases (`DeleteGlobalRef`) among a list of calls, in order. -/
def releases : List Call → List Nat
  | [] => []
  | Call.DeleteGlobalRef r :: l => r :: releases l
  | _ :: l => releases l

/-- The references created (non-`NULL` results of `NewGlobalRef`) among a
list of calls, in order. -/
def creations : List Call → List Nat
  | [] => []
  | Call.NewGlobalRef _ r :: l => if r = 0 then creations l else r :: creations l
  | _ :: l => creations l

/-- The ownership invariant of the agent:
* tag calls are permitted, and tags are `jlong`s;
* every non-zero tag is a live global reference;
* no two objects carry the same reference;
* every deletion-queue entry is a live reference, is not the tag of any object,
  and occurs in the queue once;
* the live references are distinct non-null 64-bit addresses;
* `DeleteGlobalRef` was never called on a reference that was not alive. -/
structure Inv (s : State) : Prop where
  phase : s.jvm.wrongPhase = false
  tagRange : ∀ o, -2 ^ 63 ≤ s.jvm.tags o ∧ s.jvm.tags o < 2 ^ 63
  tagLive : ∀ o, s.jvm.tags o ≠ 0 → tagToPtr (s.jvm.tags o) ∈ s.jvm.globals
  tagUnique : ∀ o p, s.jvm.tags o ≠ 0 →
    tagToPtr (s.jvm.tags o) = tagToPtr (s.jvm.tags p) → o = p
  queueLive : ∀ r ∈ s.deleteQueue, r ∈ s.jvm.globals
  queueNotTag : ∀ r ∈ s.deleteQueue, ∀ o, s.jvm.tags o ≠ 0 → tagToPtr (s.jvm.tags o) ≠ r
  queueNodup : s.deleteQueue.Nodup
  globalsNodup : s.jvm.globals.Nodup
  globalsRef : ∀ r ∈ s.jvm.globals, r ≠ 0 ∧ r < 2 ^ 64
  noDangling : s.jvm.danglingDeletes = []

/-- The calls the drain loop makes for the queue `q`. -/
def drainCalls : List Nat → List Call
  | [] => []
  | obj :: next =>
    Call.RawMonitorEnter Monitor.deleteQueueLock ::
      Call.RawMonitorExit Monitor.deleteQueueLock ::
        Call.DeleteGlobalRef obj :: drainCalls next

/-- The calls made between state `s` and a later state `t`. -/
def newCalls (s t : State) : List Call := t.jvm.log.drop s.jvm.log.length


/-! ## Casts between references and tags -/

theorem tagToPtr_ptrToTag (p : Nat) (h : p < 2 ^ 64) : tagToPtr (ptrToTag p) = p := by
  unfold tagToPtr ptrToTag
  have hp : p % 2 ^ 64 = p := Nat.mod_eq_of_lt h
  rw [hp]
  split <;> omega

theorem ptrToTag_eq_zero (p : Nat) (h : p < 2 ^ 64) : ptrToTag p = 0 ↔ p = 0 := by
  unfold ptrToTag
  have hp : p % 2 ^ 64 = p := Nat.mod_eq_of_lt h
  rw [hp]
  split <;> omega

theorem tagToPtr_zero : tagToPtr 0 = 0 := by decide

theorem ptrToTag_zero : ptrToTag 0 = 0 := by decide

theorem ptrToTag_tagToPtr (t : Int) (h1 : -2 ^ 63 ≤ t) (h2 : t < 2 ^ 63) :
    ptrToTag (tagToPtr t) = t := by
  unfold tagToPtr ptrToTag
  split <;> omega

theorem tagToPtr_lt (t : Int) : tagToPtr t < 2 ^ 64 := by
  unfold tagToPtr
  omega

theorem ptrToTag_range (p : Nat) : -2 ^ 63 ≤ ptrToTag p ∧ ptrToTag p < 2 ^ 63 := by
  unfold ptrToTag
  split <;> omega

theorem tagToPtr_eq_zero (t : Int) (h1 : -2 ^ 63 ≤ t) (h2 : t < 2 ^ 63) :
    tagToPtr t = 0 ↔ t = 0 := by
  unfold tagToPtr
  omega

/-! ## Frame lemmas -/

section frame

variable (s : State) (errnum : jvmtiError) (str : String) (m : Monitor)

@[simp] theorem check_gdata : (check_jvmti_error s errnum str).gdata = s.gdata := by
  unfold check_jvmti_error; split <;> rfl
@[simp] theorem check_deleteQueue :
    (check_jvmti_error s errnum str).deleteQueue = s.deleteQueue := by
  unfold check_jvmti_error; split <;> rfl
@[simp] theorem check_gc_count : (check_jvmti_error s errnum str).gc_count = s.gc_count := by
  unfold check_jvmti_error; split <;> rfl
@[simp] theorem check_worker : (check_jvmti_error s errnum str).worker = s.worker := by
  unfold check_jvmti_error; split <;> rfl
@[simp] theorem check_jvm : (check_jvmti_error s errnum str).jvm = s.jvm := by
  unfold check_jvmti_error; split <;> rfl
@[simp] theorem check_none : check_jvmti_error s 0 str = s := by
  simp [check_jvmti_error]

end frame

section monitor

variable (s : State) (F : JVM → Monitor → JVM × jvmtiError) (str : String) (m : Monitor)

@[simp] theorem monitorCall_gdata : (monitorCall s F m str).gdata = s.gdata := by
  simp [monitorCall]
@[simp] theorem monitorCall_deleteQueue :
    (monitorCall s F m str).deleteQueue = s.deleteQueue := by
  simp [monitorCall]
@[simp] theorem monitorCall_gc_count : (monitorCall s F m str).gc_count = s.gc_count := by
  simp [monitorCall]
@[simp] theorem monitorCall_worker : (monitorCall s F m str).worker = s.worker := by
  simp [monitorCall]
@[simp] theorem monitorCall_jvm : (monitorCall s F m str).jvm = (F s.jvm m).1 := by
  simp [monitorCall]

@[simp] theorem enter_fst (j : JVM) : (j.RawMonitorEnter m).1
    = { j with log := j.log ++ [Call.RawMonitorEnter m] } := rfl
@[simp] theorem exit_fst (j : JVM) : (j.RawMonitorExit m).1
    = { j with log := j.log ++ [Call.RawMonitorExit m] } := rfl
@[simp] theorem notify_fst (j : JVM) : (j.RawMonitorNotify m).1
    = { j with log := j.log ++ [Call.RawMonitorNotify m] } := rfl

end monitor

/-! ## The drain loop -/

section drain

@[simp] theorem delete_tags (j : JVM) (r : Nat) : (j.DeleteGlobalRef r).tags = j.tags := by
  unfold JVM.DeleteGlobalRef
  split
  · rfl
  · split <;> rfl

@[simp] theorem delete_wrongPhase (j : JVM) (r : Nat) :
    (j.DeleteGlobalRef r).wrongPhase = j.wrongPhase := by
  unfold JVM.DeleteGlobalRef
  split
  · rfl
  · split <;> rfl

@[simp] theorem delete_monitorError (j : JVM) (r : Nat) :
    (j.DeleteGlobalRef r).monitorError = j.monitorError := by
  unfold JVM.DeleteGlobalRef
  split
  · rfl
  · split <;> rfl

@[simp] theorem delete_log (j : JVM) (r : Nat) :
    (j.DeleteGlobalRef r).log = j.log ++ [Call.DeleteGlobalRef r] := by
  unfold JVM.DeleteGlobalRef
  split
  · rfl
  · split <;> rfl

theorem delete_live (j : JVM) (r : Nat) (h0 : r ≠ 0) (h : r ∈ j.globals) :
    j.DeleteGlobalRef r
      = { j with log := j.log ++ [Call.DeleteGlobalRef r], globals := j.globals.erase r } := by
  simp [JVM.DeleteGlobalRef, h0, h]

variable (obj : Nat) (next : List Nat) (s : State)

@[simp] theorem drainStep_gdata : (gcWorker_drainStep obj next s).gdata = s.gdata := by
  simp [gcWorker_drainStep]
@[simp] theorem drainStep_gc_count :
    (gcWorker_drainStep obj next s).gc_count = s.gc_count := by
  simp [gcWorker_drainStep]
@[simp] theorem drainStep_worker : (gcWorker_drainStep obj next s).worker = s.worker := by
  simp [gcWorker_drainStep]
@[simp] theorem drainStep_deleteQueue :
    (gcWorker_drainStep obj next s).deleteQueue = next := by
  simp [gcWorker_drainStep]
@[simp] theorem drainStep_tags : (gcWorker_drainStep obj next s).jvm.tags = s.jvm.tags := by
  simp [gcWorker_drainStep]
@[simp] theorem drainStep_wrongPhase :
    (gcWorker_drainStep obj next s).jvm.wrongPhase = s.jvm.wrongPhase := by
  simp [gcWorker_drainStep]
@[simp] theorem drainStep_log : (gcWorker_drainStep obj next s).jvm.log
    = s.jvm.log ++ [Call.RawMonitorEnter Monitor.deleteQueueLock,
        Call.RawMonitorExit Monitor.deleteQueueLock, Call.DeleteGlobalRef obj] := by
  simp [gcWorker_drainStep]

theorem drainStep_live (h0 : obj ≠ 0) (h : obj ∈ s.jvm.globals) :
    (gcWorker_drainStep obj next s).jvm.globals = s.jvm.globals.erase obj ∧
    (gcWorker_drainStep obj next s).jvm.danglingDeletes = s.jvm.danglingDeletes := by
  simp only [gcWorker_drainStep, monitorCall_jvm, exit_fst, enter_fst]
  rw [delete_live _ _ h0 (by simpa using h)]
  simp

@[simp] theorem drain_gdata (q : List Nat) (s : State) :
    (gcWorker_drain q s).gdata = s.gdata := by
  induction q generalizing s with
  | nil => rfl
  | cons obj next ih => simp [gcWorker_drain, ih]

@[simp] theorem drain_gc_count (q : List Nat) (s : State) :
    (gcWorker_drain q s).gc_count = s.gc_count := by
  induction q generalizing s with
  | nil => rfl
  | cons obj next ih => simp [gcWorker_drain, ih]

@[simp] theorem drain_worker (q : List Nat) (s : State) :
    (gcWorker_drain q s).worker = s.worker := by
  induction q generalizing s with
  | nil => rfl
  | cons obj next ih => simp [gcWorker_drain, ih]

theorem drain_deleteQueue (q : List Nat) (s : State) (h : s.deleteQueue = q) :
    (gcWorker_drain q s).deleteQueue = [] := by
  induction q generalizing s with
  | nil => simpa [gcWorker_drain] using h
  | cons obj next ih =>
    simp only [gcWorker_drain]
    apply ih
    simp

@[simp] theorem drain_tags (q : List Nat) (s : State) :
    (gcWorker_drain q s).jvm.tags = s.jvm.tags := by
  induction q generalizing s with
  | nil => rfl
  | cons obj next ih => simp [gcWorker_drain, ih]

@[simp] theorem drain_wrongPhase (q : List Nat) (s : State) :
    (gcWorker_drain q s).jvm.wrongPhase = s.jvm.wrongPhase := by
  induction q generalizing s with
  | nil => rfl
  | cons obj next ih => simp [gcWorker_drain, ih]

@[simp] theorem drain_log (q : List Nat) (s : State) :
    (gcWorker_drain q s).jvm.log = s.jvm.log ++ drainCalls q := by
  induction q generalizing s with
  | nil => simp [gcWorker_drain, drainCalls]
  | cons obj next ih => simp [gcWorker_drain, drainCalls, ih]

/-- Draining a queue of distinct live references releases exactly them, and
never deletes a reference that is not alive. -/
theorem drain_globals (q : List Nat) (s : State) (hq : q.Nodup)
    (hlive : ∀ r ∈ q, r ≠ 0 ∧ r ∈ s.jvm.globals) (hg : s.jvm.globals.Nodup) :
    (gcWorker_drain q s).jvm.danglingDeletes = s.jvm.danglingDeletes ∧
    (gcWorker_drain q s).jvm.globals.Nodup ∧
    ∀ x, x ∈ (gcWorker_drain q s).jvm.globals ↔ x ∈ s.jvm.globals ∧ x ∉ q := by
  induction q generalizing s with
  | nil => simp [gcWorker_drain, hg]
  | cons obj next ih =>
    have hobj := hlive obj (List.mem_cons_self _ _)
    have hnd := List.nodup_cons.mp hq
    have hstep := drainStep_live obj next s hobj.1 hobj.2
    simp only [gcWorker_drain]
    have key := ih (gcWorker_drainStep obj next s) hnd.2
      (by
        intro r hr
        have hr2 := hlive r (List.mem_cons_of_mem _ hr)
        refine ⟨hr2.1, ?_⟩
        rw [hstep.1, List.mem_erase_of_ne]
        · exact hr2.2
        · rintro rfl; exact hnd.1 hr)
      (by rw [hstep.1]; exact hg.erase _)
    refine ⟨?_, key.2.1, ?_⟩
    · rw [key.1, hstep.2]
    · intro x
      rw [key.2.2 x, hstep.1]
      simp only [List.mem_cons, not_or]
      rw [hg.mem_erase_iff]
      tauto

end drain

/-! ## The environment calls, field by field -/

section env

variable (j : JVM) (o expr ret r : Nat) (tag : Int)

@[simp] theorem GetTag_fst : (j.GetTag o tag).1 = { j with log := j.log ++ [Call.GetTag o] } := by
  unfold JVM.GetTag; split_ifs <;> rfl
theorem GetTag_err : (j.GetTag o tag).2.1 =
    if j.wrongPhase then JVMTI_ERROR_WRONG_PHASE
    else if o = 0 then JVMTI_ERROR_INVALID_OBJECT else JVMTI_ERROR_NONE := by
  unfold JVM.GetTag; split_ifs <;> rfl
theorem GetTag_tag : (j.GetTag o tag).2.2 =
    if j.wrongPhase then tag else if o = 0 then tag else j.tags o := by
  unfold JVM.GetTag; split_ifs <;> rfl

@[simp] theorem SetTag_log : (j.SetTag o tag).1.log = j.log ++ [Call.SetTag o tag] := by
  unfold JVM.SetTag; split_ifs <;> rfl
@[simp] theorem SetTag_globals : (j.SetTag o tag).1.globals = j.globals := by
  unfold JVM.SetTag; split_ifs <;> rfl
@[simp] theorem SetTag_danglingDeletes :
    (j.SetTag o tag).1.danglingDeletes = j.danglingDeletes := by
  unfold JVM.SetTag; split_ifs <;> rfl
@[simp] theorem SetTag_wrongPhase : (j.SetTag o tag).1.wrongPhase = j.wrongPhase := by
  unfold JVM.SetTag; split_ifs <;> rfl
theorem SetTag_tags : (j.SetTag o tag).1.tags =
    if j.wrongPhase then j.tags else if o = 0 then j.tags
    else Function.update j.tags o tag := by
  unfold JVM.SetTag; split_ifs <;> rfl
theorem SetTag_err : (j.SetTag o tag).2 =
    if j.wrongPhase then JVMTI_ERROR_WRONG_PHASE
    else if o = 0 then JVMTI_ERROR_INVALID_OBJECT else JVMTI_ERROR_NONE := by
  unfold JVM.SetTag; split_ifs <;> rfl

@[simp] theorem NewGlobalRef_tags : (j.NewGlobalRef expr ret).1.tags = j.tags := by
  unfold JVM.NewGlobalRef; split_ifs <;> rfl
@[simp] theorem NewGlobalRef_wrongPhase :
    (j.NewGlobalRef expr ret).1.wrongPhase = j.wrongPhase := by
  unfold JVM.NewGlobalRef; split_ifs <;> rfl
@[simp] theorem NewGlobalRef_danglingDeletes :
    (j.NewGlobalRef expr ret).1.danglingDeletes = j.danglingDeletes := by
  unfold JVM.NewGlobalRef; split_ifs <;> rfl
theorem NewGlobalRef_globals : (j.NewGlobalRef expr ret).1.globals =
    if expr = 0 ∨ ret = 0 then j.globals else ret :: j.globals := by
  unfold JVM.NewGlobalRef; split_ifs <;> rfl
theorem NewGlobalRef_snd : (j.NewGlobalRef expr ret).2 =
    if expr = 0 ∨ ret = 0 then 0 else ret := by
  unfold JVM.NewGlobalRef; split_ifs <;> rfl
@[simp] theorem NewGlobalRef_log : (j.NewGlobalRef expr ret).1.log =
    j.log ++ [Call.NewGlobalRef expr (j.NewGlobalRef expr ret).2] := by
  unfold JVM.NewGlobalRef; split_ifs <;> rfl
theorem NewGlobalRef_snd_of_ne (h : expr ≠ 0) : (j.NewGlobalRef expr ret).2 = ret := by
  rw [NewGlobalRef_snd]
  by_cases hr : ret = 0 <;> simp [h, hr]

theorem DeleteGlobalRef_globals : (j.DeleteGlobalRef r).globals =
    if r = 0 then j.globals else j.globals.erase r := by
  unfold JVM.DeleteGlobalRef
  by_cases h0 : r = 0
  · simp [h0]
  · by_cases hm : r ∈ j.globals
    · simp [h0, hm]
    · simp [h0, hm, List.erase_of_not_mem hm]
theorem DeleteGlobalRef_danglingDeletes : (j.DeleteGlobalRef r).danglingDeletes =
    if r ≠ 0 ∧ r ∉ j.globals then j.danglingDeletes ++ [r] else j.danglingDeletes := by
  unfold JVM.DeleteGlobalRef
  by_cases h0 : r = 0
  · simp [h0]
  · by_cases hm : r ∈ j.globals <;> simp [h0, hm]

end env

/-! ## What each operation leaves alone -/

section frames

variable (s : State) (o expr ret : Nat) (tag tag0 : Int) (err : jvmtiError)

@[simp] theorem set_end_gdata : (setObjExpression_end s err).gdata = s.gdata := by
  unfold setObjExpression_end; split <;> simp
@[simp] theorem set_end_deleteQueue :
    (setObjExpression_end s err).deleteQueue = s.deleteQueue := by
  unfold setObjExpression_end; split <;> simp
@[simp] theorem set_end_gc_count : (setObjExpression_end s err).gc_count = s.gc_count := by
  unfold setObjExpression_end; split <;> simp
@[simp] theorem set_end_worker : (setObjExpression_end s err).worker = s.worker := by
  unfold setObjExpression_end; split <;> simp
@[simp] theorem set_end_jvm : (setObjExpression_end s err).jvm = s.jvm := by
  unfold setObjExpression_end; split <;> simp

@[simp] theorem set_gdata : (setObjExpression s o expr tag0 ret).gdata = s.gdata := by
  unfold setObjExpression; repeat' split
  all_goals simp
@[simp] theorem set_deleteQueue :
    (setObjExpression s o expr tag0 ret).deleteQueue = s.deleteQueue := by
  unfold setObjExpression; repeat' split
  all_goals simp
@[simp] theorem set_gc_count : (setObjExpression s o expr tag0 ret).gc_count = s.gc_count := by
  unfold setObjExpression; repeat' split
  all_goals simp
@[simp] theorem set_worker : (setObjExpression s o expr tag0 ret).worker = s.worker := by
  unfold setObjExpression; repeat' split
  all_goals simp

theorem get_fst : (getObjExpression s o tag0).1 =
    if s.gdata.vmDead then s
    else if (s.jvm.GetTag o tag0).2.1 = JVMTI_ERROR_WRONG_PHASE then
      { s with jvm := (s.jvm.GetTag o tag0).1 }
    else check_jvmti_error { s with jvm := (s.jvm.GetTag o tag0).1 }
      (s.jvm.GetTag o tag0).2.1 "Cannot get object tag" := by
  unfold getObjExpression
  by_cases h1 : s.gdata.vmDead = true
  · simp [h1]
  · by_cases h2 : (s.jvm.GetTag o tag0).2.1 = JVMTI_ERROR_WRONG_PHASE
    · simp [h1, h2]
    · by_cases h3 : (s.jvm.GetTag o tag0).2.2 = 0 <;> simp [h1, h2, h3]

theorem get_snd : (getObjExpression s o tag0).2 =
    if s.gdata.vmDead then 0
    else if (s.jvm.GetTag o tag0).2.1 = JVMTI_ERROR_WRONG_PHASE then 0
    else if (s.jvm.GetTag o tag0).2.2 ≠ 0 then tagToPtr (s.jvm.GetTag o tag0).2.2
    else 0 := by
  unfold getObjExpression
  by_cases h1 : s.gdata.vmDead = true
  · simp [h1]
  · by_cases h2 : (s.jvm.GetTag o tag0).2.1 = JVMTI_ERROR_WRONG_PHASE
    · simp [h1, h2]
    · by_cases h3 : (s.jvm.GetTag o tag0).2.2 = 0 <;> simp [h1, h2, h3]

@[simp] theorem get_gdata : (getObjExpression s o tag0).1.gdata = s.gdata := by
  rw [get_fst]; split_ifs <;> simp
@[simp] theorem get_deleteQueue :
    (getObjExpression s o tag0).1.deleteQueue = s.deleteQueue := by
  rw [get_fst]; split_ifs <;> simp
@[simp] theorem get_gc_count : (getObjExpression s o tag0).1.gc_count = s.gc_count := by
  rw [get_fst]; split_ifs <;> simp
@[simp] theorem get_worker : (getObjExpression s o tag0).1.worker = s.worker := by
  rw [get_fst]; split_ifs <;> simp

@[simp] theorem free_gdata : (cbObjectFree s tag).gdata = s.gdata := by
  unfold cbObjectFree; repeat' split
  all_goals simp
@[simp] theorem free_gc_count : (cbObjectFree s tag).gc_count = s.gc_count := by
  unfold cbObjectFree; repeat' split
  all_goals simp
@[simp] theorem free_worker : (cbObjectFree s tag).worker = s.worker := by
  unfold cbObjectFree; repeat' split
  all_goals simp
@[simp] theorem free_tags : (cbObjectFree s tag).jvm.tags = s.jvm.tags := by
  unfold cbObjectFree; repeat' split
  all_goals simp
@[simp] theorem free_globals : (cbObjectFree s tag).jvm.globals = s.jvm.globals := by
  unfold cbObjectFree; repeat' split
  all_goals simp
@[simp] theorem free_danglingDeletes :
    (cbObjectFree s tag).jvm.danglingDeletes = s.jvm.danglingDeletes := by
  unfold cbObjectFree; repeat' split
  all_goals simp
@[simp] theorem free_wrongPhase : (cbObjectFree s tag).jvm.wrongPhase = s.jvm.wrongPhase := by
  unfold cbObjectFree; repeat' split
  all_goals simp

@[simp] theorem collect_gdata : (collect s o).gdata = s.gdata := by
  simp only [collect]; split_ifs <;> simp
@[simp] theorem collect_gc_count : (collect s o).gc_count = s.gc_count := by
  simp only [collect]; split_ifs <;> simp
@[simp] theorem collect_worker : (collect s o).worker = s.worker := by
  simp only [collect]; split_ifs <;> simp

@[simp] theorem gc_finish_gdata : (gc_finish s).gdata = s.gdata := by
  simp [gc_finish]
@[simp] theorem gc_finish_worker : (gc_finish s).worker = s.worker := by
  simp [gc_finish]
@[simp] theorem gc_finish_deleteQueue : (gc_finish s).deleteQueue = s.deleteQueue := by
  simp [gc_finish]
@[simp] theorem gc_finish_gc_count : (gc_finish s).gc_count = wrapInt32 (s.gc_count + 1) := by
  simp [gc_finish]
@[simp] theorem gc_finish_jvm : (gc_finish s).jvm
    = { s.jvm with log := s.jvm.log ++ [Call.RawMonitorEnter Monitor.gcLock,
          Call.RawMonitorNotify Monitor.gcLock, Call.RawMonitorExit Monitor.gcLock] } := by
  simp [gc_finish]

@[simp] theorem while_gdata : (gcWorker_while s).gdata = s.gdata := by
  unfold gcWorker_while; split <;> simp
@[simp] theorem gcWorker_gdata : (gcWorker s).gdata = s.gdata := by
  unfold gcWorker; split <;> simp
@[simp] theorem resume_gdata : (gcWorker_resume s err).gdata = s.gdata := by
  unfold gcWorker_resume; split
  · split <;> simp
  · rfl

theorem while_worker : (gcWorker_while s).worker ≠ WorkerPC.returned := by
  unfold gcWorker_while; split <;> simp

end frames

/-! ## `setObjExpression` while the VM is alive and permits tag calls -/

section setNormal

variable (s : State) (o expr ret : Nat) (tag0 : Int)
  (hd : s.gdata.vmDead = false) (ho : o ≠ 0) (hp : s.jvm.wrongPhase = false)

include hd ho hp

theorem set_tags (he : expr ≠ 0) :
    (setObjExpression s o expr tag0 ret).jvm.tags
      = Function.update s.jvm.tags o (ptrToTag ret) := by
  by_cases ht : s.jvm.tags o = 0 <;>
    simp [setObjExpression, hd, ho, he, hp, ht, GetTag_tag, SetTag_tags,
      NewGlobalRef_snd_of_ne]

theorem set_globals (he : expr ≠ 0) :
    (setObjExpression s o expr tag0 ret).jvm.globals
      = if ret = 0 then
          (if s.jvm.tags o = 0 ∨ tagToPtr (s.jvm.tags o) = 0 then s.jvm.globals
           else s.jvm.globals.erase (tagToPtr (s.jvm.tags o)))
        else ret ::
          (if s.jvm.tags o = 0 ∨ tagToPtr (s.jvm.tags o) = 0 then s.jvm.globals
           else s.jvm.globals.erase (tagToPtr (s.jvm.tags o))) := by
  by_cases ht : s.jvm.tags o = 0 <;> by_cases hr : ret = 0 <;>
    by_cases h0 : tagToPtr (s.jvm.tags o) = 0 <;>
    simp [setObjExpression, hd, ho, he, hp, ht, hr, h0, GetTag_tag, NewGlobalRef_globals,
      DeleteGlobalRef_globals]

theorem set_danglingDeletes (he : expr ≠ 0) :
    (setObjExpression s o expr tag0 ret).jvm.danglingDeletes
      = if s.jvm.tags o ≠ 0 ∧ tagToPtr (s.jvm.tags o) ≠ 0
            ∧ tagToPtr (s.jvm.tags o) ∉ s.jvm.globals
        then s.jvm.danglingDeletes ++ [tagToPtr (s.jvm.tags o)]
        else s.jvm.danglingDeletes := by
  by_cases ht : s.jvm.tags o = 0 <;>
    simp [setObjExpression, hd, ho, he, hp, ht, GetTag_tag, DeleteGlobalRef_danglingDeletes]

theorem set_log (he : expr ≠ 0) :
    (setObjExpression s o expr tag0 ret).jvm.log
      = s.jvm.log ++ (Call.GetTag o ::
          ((if s.jvm.tags o = 0 then [] else [Call.DeleteGlobalRef (tagToPtr (s.jvm.tags o))])
            ++ [Call.NewGlobalRef expr ret, Call.SetTag o (ptrToTag ret)])) := by
  by_cases ht : s.jvm.tags o = 0 <;>
    simp [setObjExpression, hd, ho, he, hp, ht, GetTag_tag, NewGlobalRef_snd_of_ne]

theorem set_wrongPhase : (setObjExpression s o expr tag0 ret).jvm.wrongPhase = false := by
  by_cases he : expr = 0
  · simp [setObjExpression, hd, ho, he, hp]
  · by_cases ht : s.jvm.tags o = 0 <;>
      simp [setObjExpression, hd, ho, he, hp, ht, GetTag_tag]

theorem set_null_jvm :
    (setObjExpression s o 0 tag0 ret).jvm
      = { s.jvm with tags := Function.update s.jvm.tags o 0,
                     log := s.jvm.log ++ [Call.SetTag o 0] } := by
  simp [setObjExpression, hd, ho, hp, JVM.SetTag]

end setNormal

/-! ## C6: nothing happens after VM death -/

theorem step_vmDead (s : State) (op : Op) (h : s.gdata.vmDead = true) :
    (step s op).gdata.vmDead = true := by
  cases op <;> simp [step, callbackVMDeath, h]

theorem run_vmDead (ops : List Op) (s : State) (h : s.gdata.vmDead = true) :
    (run s ops).gdata.vmDead = true := by
  induction ops generalizing s with
  | nil => exact h
  | cons op ops ih => exact ih _ (step_vmDead s op h)

theorem step_returned (s : State) (op : Op) (h : s.worker = WorkerPC.returned) :
    (step s op).worker = WorkerPC.returned := by
  cases op <;> simp [step, callbackVMDeath, gcWorker, gcWorker_resume, h]

theorem run_returned (ops : List Op) (s : State) (h : s.worker = WorkerPC.returned) :
    (run s ops).worker = WorkerPC.returned := by
  induction ops generalizing s with
  | nil => exact h
  | cons op ops ih => exact ih _ (step_returned s op h)

/-- C6 (post-death silence).  In every state in which `vmDead` is set, for every
object and value (`NULL` or not) `setObjExpression` returns the very same state
(it makes no call into the VM: no tag is read or written, no reference created
or released) and `getObjExpression` returns `NULL` and the very same state.
`callbackVMDeath` sets the flag, and nothing that happens afterwards clears it. -/
theorem C6_post_death_silence (s : State) (o expr ret : Nat) (tag0 : Int)
    (hdead : s.gdata.vmDead = true) :
    setObjExpression s o expr tag0 ret = s ∧
    getObjExpression s o tag0 = (s, 0) ∧
    (∀ t : State, ∀ ops : List Op, (run (callbackVMDeath t) ops).gdata.vmDead = true) := by
  refine ⟨?_, ?_, ?_⟩
  · simp [setObjExpression, hdead]
  · simp [getObjExpression, hdead]
  · intro t ops
    exact run_vmDead ops _ rfl

theorem C6_post_death_silence_witness :
    (callbackVMDeath (setObjExpression init 7 9 0 100)).gdata.vmDead = true ∧
    (setObjExpression (callbackVMDeath (setObjExpression init 7 9 0 100)) 7 11 0 200
        = callbackVMDeath (setObjExpression init 7 9 0 100) ∧
      getObjExpression (callbackVMDeath (setObjExpression init 7 9 0 100)) 7 0
        = (callbackVMDeath (setObjExpression init 7 9 0 100), 0) ∧
      (∀ t : State, ∀ ops : List Op, (run (callbackVMDeath t) ops).gdata.vmDead = true)) :=
  ⟨rfl, C6_post_death_silence (callbackVMDeath (setObjExpression init 7 9 0 100)) 7 11 200 0 rfl⟩

/-! ## C10: the worker returns when its wait fails -/

/-- C10 (worker termination on wait error).  For every state in which the worker
is blocked in `RawMonitorWait(gcLock)`: if the wait returns an error, the worker
makes exactly one call, `RawMonitorExit(gcLock)`, and has returned; no reference
is released, the live references, the tags, the deletion queue and `gc_count`
are what they were; and the worker stays returned whatever happens afterwards.
If the wait returns `JVMTI_ERROR_NONE`, the worker has not returned. -/
theorem C10_worker_returns_on_wait_error (s : State) (err : jvmtiError)
    (hw : s.worker = WorkerPC.waiting) :
    (err ≠ JVMTI_ERROR_NONE →
      (gcWorker_resume s err).worker = WorkerPC.returned ∧
      (gcWorker_resume s err).jvm.log = s.jvm.log ++ [Call.RawMonitorExit Monitor.gcLock] ∧
      releases (newCalls s (gcWorker_resume s err)) = [] ∧
      (gcWorker_resume s err).jvm.globals = s.jvm.globals ∧
      (gcWorker_resume s err).jvm.tags = s.jvm.tags ∧
      (gcWorker_resume s err).deleteQueue = s.deleteQueue ∧
      (gcWorker_resume s err).gc_count = s.gc_count ∧
      (∀ ops : List Op, (run (gcWorker_resume s err) ops).worker = WorkerPC.returned) ∧
      (∀ e : jvmtiError, gcWorker_resume (gcWorker_resume s err) e = gcWorker_resume s err) ∧
      gcWorker (gcWorker_resume s err) = gcWorker_resume s err) ∧
    (gcWorker_resume s JVMTI_ERROR_NONE).worker ≠ WorkerPC.returned := by
  constructor
  · intro herr
    have hret : (gcWorker_resume s err).worker = WorkerPC.returned := by
      simp [gcWorker_resume, hw, herr]
    refine ⟨hret, ?_, ?_, ?_, ?_, ?_, ?_, ?_, ?_, ?_⟩
    · simp [gcWorker_resume, hw, herr]
    · simp [gcWorker_resume, hw, herr, newCalls, releases]
    · simp [gcWorker_resume, hw, herr]
    · simp [gcWorker_resume, hw, herr]
    · simp [gcWorker_resume, hw, herr]
    · simp [gcWorker_resume, hw, herr]
    · intro ops
      exact run_returned ops _ hret
    · intro e
      rw [gcWorker_resume, hret]
    · rw [gcWorker, hret]
  · simp only [gcWorker_resume, hw]
    simpa using while_worker s

theorem C10_worker_returns_on_wait_error_witness :
    (gcWorker init).worker = WorkerPC.waiting ∧
    (gcWorker_resume (gcWorker init) 52).worker = WorkerPC.returned ∧
    (gcWorker_resume (gcWorker init) JVMTI_ERROR_NONE).worker ≠ WorkerPC.returned :=
  ⟨rfl,
   ((C10_worker_returns_on_wait_error (gcWorker init) 52 rfl).1 (by decide)).1,
   (C10_worker_returns_on_wait_error (gcWorker init) 52 rfl).2⟩

/-! ## C1: get reflects the last set -/

section tagsFrame

variable (s : State) (o p expr ret : Nat) (tag0 : Int) (err : jvmtiError)

theorem set_tags_other (h : p ≠ o) :
    (setObjExpression s p expr tag0 ret).jvm.tags o = s.jvm.tags o := by
  unfold setObjExpression
  split_ifs <;> simp [SetTag_tags] <;> split_ifs <;> simp [Function.update_noteq (Ne.symm h)]

@[simp] theorem get_tags : (getObjExpression s o tag0).1.jvm.tags = s.jvm.tags := by
  rw [get_fst]; split_ifs <;> simp
@[simp] theorem get_globals : (getObjExpression s o tag0).1.jvm.globals = s.jvm.globals := by
  rw [get_fst]; split_ifs <;> simp
@[simp] theorem get_danglingDeletes :
    (getObjExpression s o tag0).1.jvm.danglingDeletes = s.jvm.danglingDeletes := by
  rw [get_fst]; split_ifs <;> simp
@[simp] theorem get_wrongPhase :
    (getObjExpression s o tag0).1.jvm.wrongPhase = s.jvm.wrongPhase := by
  rw [get_fst]; split_ifs <;> simp

@[simp] theorem while_tags : (gcWorker_while s).jvm.tags = s.jvm.tags := by
  unfold gcWorker_while; split <;> simp [JVM.RawMonitorWait]
@[simp] theorem gcWorker_tags : (gcWorker s).jvm.tags = s.jvm.tags := by
  unfold gcWorker; split <;> simp
@[simp] theorem resume_tags : (gcWorker_resume s err).jvm.tags = s.jvm.tags := by
  unfold gcWorker_resume; split
  · split <;> simp
  · rfl

theorem collect_tags : (collect s p).jvm.tags = Function.update s.jvm.tags p 0 := by
  simp only [collect]; split_ifs <;> simp

theorem step_tags_zero (op : Op) (h : s.jvm.tags o = 0)
    (hop : ∀ e t r, op ≠ Op.set o e t r) : (step s op).jvm.tags o = 0 := by
  cases op with
  | set p e t r =>
    have hpo : p ≠ o := by
      rintro rfl
      exact hop e t r rfl
    simpa [step, set_tags_other s o p e r t hpo] using h
  | get p t => simpa [step] using h
  | free p =>
    simp only [step, collect_tags]
    by_cases hpo : o = p
    · subst hpo
      exact Function.update_same _ _ _
    · rw [Function.update_noteq hpo]
      exact h
  | gcFinish => simpa [step] using h
  | work => simpa [step] using h
  | wake e => simpa [step] using h
  | death => simpa [step, callbackVMDeath] using h

theorem run_tags_zero (ops : List Op) (s : State) (o : Nat) (h : s.jvm.tags o = 0)
    (hops : ∀ e t r, Op.set o e t r ∉ ops) : (run s ops).jvm.tags o = 0 := by
  induction ops generalizing s with
  | nil => exact h
  | cons op ops ih =>
    refine ih _ (step_tags_zero s o op h ?_) ?_
    · intro e t r hop
      exact hops e t r (hop ▸ List.mem_cons_self _ _)
    · intro e t r hm
      exact hops e t r (List.mem_cons_of_mem _ hm)

theorem get_untagged (ho : o ≠ 0) (h : s.jvm.tags o = 0) :
    (getObjExpression s o tag0).2 = 0 := by
  rw [get_snd, GetTag_tag, GetTag_err]
  split_ifs <;> simp_all

end tagsFrame

/-- C1 (get reflects last set).  For every non-null object `o`, in a state with
the VM not dead and the runtime permitting tag calls: after
`setObjExpression(o, v)` with `v` non-null, during which `NewGlobalRef(v)`
returned `ret`, the next `getObjExpression(o)` returns `ret`, whatever tag `o`
carried before; after `setObjExpression(o, NULL)` it returns `NULL`; and after
any run from the initial state in which `setObjExpression` was never called on
`o`, it returns `NULL`. -/
theorem C1_get_reflects_last_set (s : State) (o v ret : Nat) (tag0 tag1 : Int)
    (ho : o ≠ 0) (hd : s.gdata.vmDead = false) (hp : s.jvm.wrongPhase = false)
    (hret : ret < 2 ^ 64) :
    (v ≠ 0 →
      Call.NewGlobalRef v ret ∈ newCalls s (setObjExpression s o v tag0 ret) ∧
      (getObjExpression (setObjExpression s o v tag0 ret) o tag1).2 = ret) ∧
    (getObjExpression (setObjExpression s o 0 tag0 ret) o tag1).2 = 0 ∧
    (∀ ops : List Op, (∀ e t r, Op.set o e t r ∉ ops) →
      (getObjExpression (run init ops) o tag1).2 = 0) := by
  refine ⟨?_, ?_, ?_⟩
  · intro hv
    constructor
    · simp [newCalls, set_log s o v ret tag0 hd ho hp hv]
    · rw [get_snd, GetTag_tag, GetTag_err, set_wrongPhase s o v ret tag0 hd ho hp,
        set_tags s o v ret tag0 hd ho hp hv]
      simp only [set_gdata, hd, ho, Function.update_same]
      by_cases h0 : ptrToTag ret = 0
      · have hz := (ptrToTag_eq_zero ret hret).mp h0
        subst hz
        simp [ptrToTag_zero]
      · simp [h0, tagToPtr_ptrToTag ret hret]
  · apply get_untagged _ _ _ ho
    rw [set_null_jvm s o ret tag0 hd ho hp]
    simp
  · intro ops hops
    exact get_untagged _ _ _ ho (run_tags_zero ops init o rfl hops)

theorem C1_get_reflects_last_set_witness :
    (getObjExpression (setObjExpression (setObjExpression init 7 9 0 100) 7 11 0 200) 7 0).2
      = 200 ∧
    (getObjExpression (setObjExpression (setObjExpression init 7 9 0 100) 7 0 0 200) 7 0).2
      = 0 :=
  ⟨((C1_get_reflects_last_set (setObjExpression init 7 9 0 100) 7 11 200 0 0
      (by decide) rfl rfl (by decide)).1 (by decide)).2,
   (C1_get_reflects_last_set (setObjExpression init 7 9 0 100) 7 11 200 0 0
      (by decide) rfl rfl (by decide)).2.1⟩

/-! ## C7: the null object -/

/-- C7 (null object), evaluated on the code.  `setObjExpression(NULL, v)` returns
the state unchanged, and `getObjExpression(NULL)` creates and releases nothing
and changes no tag.  But `getObjExpression` has no null check: with the VM alive
and tag calls permitted, `GetTag(NULL, &tag)` fails without writing `tag`, the
error is printed, and the function returns whatever the local `tag` held
(`tag0`), which is not `NULL` as soon as `tag0` is not zero. -/
theorem C7_getObjExpression_null_returns_garbage :
    (∀ (s : State) (v ret : Nat) (tag0 : Int), setObjExpression s 0 v tag0 ret = s) ∧
    (∀ (s : State) (tag0 : Int),
      (getObjExpression s 0 tag0).1.jvm.globals = s.jvm.globals ∧
      (getObjExpression s 0 tag0).1.jvm.tags = s.jvm.tags ∧
      releases (newCalls s (getObjExpression s 0 tag0).1) = [] ∧
      creations (newCalls s (getObjExpression s 0 tag0).1) = []) ∧
    (∀ (s : State) (tag0 : Int),
      (getObjExpression
        { s with gdata := { s.gdata with vmDead := false },
                 jvm := { s.jvm with wrongPhase := false } } 0 tag0).2
        = if tag0 = 0 then 0 else tagToPtr tag0) ∧
    (getObjExpression init 0 5).2 = 5 ∧
    (getObjExpression init 0 5).1.stdout
      = [(JVMTI_ERROR_INVALID_OBJECT, "Cannot get object tag")] := by
  refine ⟨?_, ?_, ?_, rfl, rfl⟩
  · intro s v ret tag0
    by_cases h : s.gdata.vmDead = true <;> simp [setObjExpression, h]
  · intro s tag0
    refine ⟨by simp, by simp, ?_, ?_⟩
    · rw [get_fst, newCalls]
      split_ifs <;> simp [releases]
    · rw [get_fst, newCalls]
      split_ifs <;> simp [creations]
  · intro s tag0
    rw [get_snd, GetTag_tag, GetTag_err]
    by_cases h : tag0 = 0 <;> simp [h]

section setAnyMode

variable (s : State) (o expr ret : Nat) (tag0 : Int)

theorem set_wrongPhase_same :
    (setObjExpression s o expr tag0 ret).jvm.wrongPhase = s.jvm.wrongPhase := by
  by_cases hd : s.gdata.vmDead = true
  · simp [setObjExpression, hd]
  · by_cases ho : o = 0
    · simp [setObjExpression, hd, ho]
    · by_cases he : expr = 0
      · simp [setObjExpression, hd, ho, he]
      · by_cases ht : (s.jvm.GetTag o tag0).2.2 = 0 <;>
          simp [setObjExpression, hd, ho, he, ht]

theorem set_tags_of_wrongPhase (h : s.jvm.wrongPhase = true) :
    (setObjExpression s o expr tag0 ret).jvm.tags = s.jvm.tags := by
  by_cases hd : s.gdata.vmDead = true
  · simp [setObjExpression, hd]
  · by_cases ho : o = 0
    · simp [setObjExpression, hd, ho]
    · by_cases he : expr = 0
      · simp [setObjExpression, hd, ho, he, SetTag_tags, h]
      · by_cases ht : (s.jvm.GetTag o tag0).2.2 = 0 <;>
          simp [setObjExpression, hd, ho, he, ht, SetTag_tags, h]

theorem set_stdout_of_wrongPhase (h : s.jvm.wrongPhase = true) :
    (setObjExpression s o expr tag0 ret).stdout = s.stdout := by
  by_cases hd : s.gdata.vmDead = true
  · simp [setObjExpression, hd]
  · by_cases ho : o = 0
    · simp [setObjExpression, hd, ho]
    · by_cases he : expr = 0
      · simp [setObjExpression, setObjExpression_end, hd, ho, he, SetTag_err, h]
      · by_cases ht : (s.jvm.GetTag o tag0).2.2 = 0 <;>
          simp [setObjExpression, setObjExpression_end, hd, ho, he, ht, SetTag_err, h]

end setAnyMode

/-! ## C8: the restricted phase -/

/-- C8 (restricted phase), evaluated on the code.  With the VM not dead and
`GetTag`/`SetTag` answering `JVMTI_ERROR_WRONG_PHASE`, `getObjExpression` returns
`NULL`, and `setObjExpression` prints nothing and changes no tag.  But for a
non-null object and a non-null value it still calls `NewGlobalRef`, so a
reference is created (and referenced by no tag); and because `GetTag` failed
without writing the local `tag`, it calls `DeleteGlobalRef` on whatever `tag`
held (`tag0`) when that is not zero. -/
theorem C8_wrong_phase_set_creates_reference :
    (∀ (s : State) (o v ret : Nat) (tag0 : Int),
      (setObjExpression
        { s with gdata := { s.gdata with vmDead := false },
                 jvm := { s.jvm with wrongPhase := true } } (o + 1) (v + 1) tag0 (ret + 1)).jvm.log
        = s.jvm.log ++ (Call.GetTag (o + 1) ::
            ((if tag0 = 0 then [] else [Call.DeleteGlobalRef (tagToPtr tag0)])
              ++ [Call.NewGlobalRef (v + 1) (ret + 1),
                  Call.SetTag (o + 1) (ptrToTag (ret + 1))]))) ∧
    (∀ (s : State) (o v ret : Nat),
      (setObjExpression
        { s with gdata := { s.gdata with vmDead := false },
                 jvm := { s.jvm with wrongPhase := true } } (o + 1) (v + 1) 0 (ret + 1)).jvm.globals
        = (ret + 1) :: s.jvm.globals) ∧
    (∀ (s : State) (o v ret : Nat) (tag0 : Int),
      (setObjExpression
        { s with jvm := { s.jvm with wrongPhase := true } } o v tag0 ret).jvm.tags = s.jvm.tags ∧
      (setObjExpression
        { s with jvm := { s.jvm with wrongPhase := true } } o v tag0 ret).stdout = s.stdout ∧
      (getObjExpression
        { s with jvm := { s.jvm with wrongPhase := true } } o tag0).2 = 0 ∧
      (getObjExpression
        { s with jvm := { s.jvm with wrongPhase := true } } o tag0).1.stdout = s.stdout) ∧
    (setObjExpression
        { init with jvm := { init.jvm with wrongPhase := true } } 7 9 0 100).jvm.globals = [100] ∧
    (setObjExpression
        { init with jvm := { init.jvm with wrongPhase := true } } 7 9 5 100).jvm.log
      = [Call.GetTag 7, Call.DeleteGlobalRef 5, Call.NewGlobalRef 9 100, Call.SetTag 7 100] := by
  refine ⟨?_, ?_, ?_, rfl, rfl⟩
  · intro s o v ret tag0
    by_cases h : tag0 = 0 <;>
      simp [setObjExpression, GetTag_tag, NewGlobalRef_snd_of_ne, h]
  · intro s o v ret
    simp [setObjExpression, GetTag_tag, NewGlobalRef_globals]
  · intro s o v ret tag0
    refine ⟨?_, ?_, ?_, ?_⟩
    · exact set_tags_of_wrongPhase _ o v ret tag0 rfl
    · exact set_stdout_of_wrongPhase _ o v ret tag0 rfl
    · rw [get_snd, GetTag_err]
      simp
    · rw [get_fst, GetTag_err]
      by_cases hd : s.gdata.vmDead = true <;> simp [hd]

/-! ## C5: the ownership invariant -/

/-! The invariant `Inv` is proved for every run in which tag calls are permitted;
the last theorem of this section evaluates the code where they are not. -/

theorem init_inv : Inv init where
  phase := rfl
  tagRange := by intro o; simp [init]
  tagLive := by intro o h; simp [init] at h
  tagUnique := by intro o p h; simp [init] at h
  queueLive := by intro r h; simp [init] at h
  queueNotTag := by intro r h; simp [init] at h
  queueNodup := by simp [init]
  globalsNodup := by simp [init]
  globalsRef := by intro r h; simp [init] at h
  noDangling := rfl

/-- The invariant only looks at the phase, the tags, the live references, the
dangling deletes and the queue. -/
theorem Inv.congr {s t : State} (h : Inv s)
    (h1 : t.jvm.wrongPhase = s.jvm.wrongPhase) (h2 : t.jvm.tags = s.jvm.tags)
    (h3 : t.jvm.globals = s.jvm.globals)
    (h4 : t.jvm.danglingDeletes = s.jvm.danglingDeletes)
    (h5 : t.deleteQueue = s.deleteQueue) : Inv t where
  phase := by rw [h1]; exact h.phase
  tagRange := by rw [h2]; exact h.tagRange
  tagLive := by rw [h2, h3]; exact h.tagLive
  tagUnique := by rw [h2]; exact h.tagUnique
  queueLive := by rw [h3, h5]; exact h.queueLive
  queueNotTag := by rw [h2, h5]; exact h.queueNotTag
  queueNodup := by rw [h5]; exact h.queueNodup
  globalsNodup := by rw [h3]; exact h.globalsNodup
  globalsRef := by rw [h3]; exact h.globalsRef
  noDangling := by rw [h4]; exact h.noDangling

theorem Inv.tag_ne_zero {s : State} (h : Inv s) (o : Nat) (ht : s.jvm.tags o ≠ 0) :
    tagToPtr (s.jvm.tags o) ≠ 0 :=
  (h.globalsRef _ (h.tagLive o ht)).1

theorem get_inv (s : State) (o : Nat) (tag0 : Int) (h : Inv s) :
    Inv (getObjExpression s o tag0).1 :=
  h.congr (by simp) (by simp) (by simp) (by simp) (by simp)

theorem gc_finish_inv (s : State) (h : Inv s) : Inv (gc_finish s) :=
  h.congr (by simp) (by simp) (by simp) (by simp) (by simp)

theorem death_inv (s : State) (h : Inv s) : Inv (callbackVMDeath s) :=
  h.congr rfl rfl rfl rfl rfl

theorem while_inv (s : State) (h : Inv s) : Inv (gcWorker_while s) := by
  unfold gcWorker_while
  split
  · exact h.congr rfl rfl rfl rfl rfl
  · have hs2 : Inv (monitorCall { s with gc_count := 0 } JVM.RawMonitorExit Monitor.gcLock
        "raw monitor exit") := h.congr (by simp) (by simp) (by simp) (by simp) (by simp)
    have hd := drain_globals _ _ hs2.queueNodup
      (fun r hr => ⟨(hs2.globalsRef r (hs2.queueLive r hr)).1, hs2.queueLive r hr⟩)
      hs2.globalsNodup
    have hq := drain_deleteQueue _ _ (rfl : (monitorCall { s with gc_count := 0 }
      JVM.RawMonitorExit Monitor.gcLock "raw monitor exit").deleteQueue = _)
    exact
      { phase := by simpa using h.phase
        tagRange := by simpa using h.tagRange
        tagLive := by
          intro o ho
          have ho2 : s.jvm.tags o ≠ 0 := by simpa using ho
          simp only [drain_tags]
          rw [hd.2.2]
          refine ⟨by simpa using h.tagLive o ho2, ?_⟩
          intro hm
          exact hs2.queueNotTag _ hm o (by simpa using ho2) (by simp)
        tagUnique := by simpa using h.tagUnique
        queueLive := by
          intro r hr
          simp only [hq] at hr
          exact absurd hr (List.not_mem_nil r)
        queueNotTag := by
          intro r hr
          simp only [hq] at hr
          exact absurd hr (List.not_mem_nil r)
        queueNodup := by simp only [hq]; exact List.nodup_nil
        globalsNodup := hd.2.1
        globalsRef := by
          intro r hr
          have := (hd.2.2 r).mp hr
          exact hs2.globalsRef r this.1
        noDangling := by
          show (gcWorker_drain _ _).jvm.danglingDeletes = []
          rw [hd.1]
          exact hs2.noDangling }

theorem gcWorker_inv (s : State) (h : Inv s) : Inv (gcWorker s) := by
  unfold gcWorker
  split
  · exact while_inv _ (h.congr (by simp) (by simp) (by simp) (by simp) (by simp))
  · exact h

theorem resume_inv (s : State) (err : jvmtiError) (h : Inv s) :
    Inv (gcWorker_resume s err) := by
  unfold gcWorker_resume
  split
  · split
    · exact h.congr (by simp) (by simp) (by simp) (by simp) (by simp)
    · exact while_inv _ h
  · exact h

section collectFrame

variable (s : State) (o : Nat)

@[simp] theorem collect_globals : (collect s o).jvm.globals = s.jvm.globals := by
  simp only [collect]; split_ifs <;> simp
@[simp] theorem collect_danglingDeletes :
    (collect s o).jvm.danglingDeletes = s.jvm.danglingDeletes := by
  simp only [collect]; split_ifs <;> simp
@[simp] theorem collect_wrongPhase : (collect s o).jvm.wrongPhase = s.jvm.wrongPhase := by
  simp only [collect]; split_ifs <;> simp

theorem free_deleteQueue (tag : Int) : (cbObjectFree s tag).deleteQueue =
    if s.gdata.vmDead = true ∨ tag = 0 then s.deleteQueue
    else tagToPtr tag :: s.deleteQueue := by
  by_cases hd : s.gdata.vmDead = true
  · simp [cbObjectFree, hd]
  · by_cases ht : tag = 0 <;> simp [cbObjectFree, hd, ht]

theorem collect_deleteQueue : (collect s o).deleteQueue =
    if s.gdata.vmDead = true ∨ s.jvm.tags o = 0 then s.deleteQueue
    else tagToPtr (s.jvm.tags o) :: s.deleteQueue := by
  simp only [collect]
  by_cases ht : s.jvm.tags o = 0
  · simp [ht]
  · simp [ht, free_deleteQueue]

end collectFrame

theorem collect_inv (s : State) (o : Nat) (h : Inv s) : Inv (collect s o) := by
  have hne : ∀ p, (collect s o).jvm.tags p ≠ 0 → p ≠ o ∧ s.jvm.tags p ≠ 0 := by
    intro p hp
    rw [collect_tags, Function.update_apply] at hp
    by_cases hpo : p = o
    · simp [hpo] at hp
    · simpa [hpo] using hp
  have heq : ∀ p, p ≠ o → (collect s o).jvm.tags p = s.jvm.tags p := by
    intro p hp
    rw [collect_tags, Function.update_noteq hp]
  have hqm : ∀ r, r ∈ (collect s o).deleteQueue →
      r ∈ s.deleteQueue ∨ (s.jvm.tags o ≠ 0 ∧ r = tagToPtr (s.jvm.tags o)) := by
    intro r hr
    rw [collect_deleteQueue] at hr
    split_ifs at hr with hc
    · exact Or.inl hr
    · rcases List.mem_cons.mp hr with h1 | h1
      · exact Or.inr ⟨fun h0 => hc (Or.inr h0), h1⟩
      · exact Or.inl h1
  exact
    { phase := by simpa using h.phase
      tagRange := by
        intro p
        rw [collect_tags, Function.update_apply]
        split_ifs
        · constructor <;> norm_num
        · exact h.tagRange p
      tagLive := by
        intro p hp
        obtain ⟨hpo, hp2⟩ := hne p hp
        rw [heq p hpo, collect_globals]
        exact h.tagLive p hp2
      tagUnique := by
        intro p q hp hpq
        obtain ⟨hpo, hp2⟩ := hne p hp
        rw [heq p hpo] at hpq
        by_cases hqo : q = o
        · subst hqo
          rw [collect_tags, Function.update_same, tagToPtr_zero] at hpq
          exact absurd hpq (h.tag_ne_zero p hp2)
        · rw [heq q hqo] at hpq
          exact h.tagUnique p q hp2 hpq
      queueLive := by
        intro r hr
        rw [collect_globals]
        rcases hqm r hr with h1 | ⟨h1, h2⟩
        · exact h.queueLive r h1
        · rw [h2]; exact h.tagLive o h1
      queueNotTag := by
        intro r hr p hp
        obtain ⟨hpo, hp2⟩ := hne p hp
        rw [heq p hpo]
        rcases hqm r hr with h1 | ⟨h1, h2⟩
        · exact h.queueNotTag r h1 p hp2
        · rw [h2]
          intro he
          exact hpo (h.tagUnique p o hp2 he)
      queueNodup := by
        rw [collect_deleteQueue]
        split_ifs with hc
        · exact h.queueNodup
        · refine List.nodup_cons.mpr ⟨?_, h.queueNodup⟩
          intro hm
          exact h.queueNotTag _ hm o (fun h0 => hc (Or.inr h0)) rfl
      globalsNodup := by simpa using h.globalsNodup
      globalsRef := by simpa using h.globalsRef
      noDangling := by simpa using h.noDangling }

theorem set_null_inv (s : State) (o ret : Nat) (tag0 : Int) (h : Inv s)
    (hd : s.gdata.vmDead = false) (ho : o ≠ 0) :
    Inv (setObjExpression s o 0 tag0 ret) := by
  have hj := set_null_jvm s o ret tag0 hd ho h.phase
  have htags : (setObjExpression s o 0 tag0 ret).jvm.tags = Function.update s.jvm.tags o 0 := by
    rw [hj]
  have hne : ∀ p, (setObjExpression s o 0 tag0 ret).jvm.tags p ≠ 0 →
      p ≠ o ∧ s.jvm.tags p ≠ 0 := by
    intro p hp
    rw [htags, Function.update_apply] at hp
    by_cases hpo : p = o
    · simp [hpo] at hp
    · simpa [hpo] using hp
  have heq : ∀ p, p ≠ o → (setObjExpression s o 0 tag0 ret).jvm.tags p = s.jvm.tags p := by
    intro p hp
    rw [htags, Function.update_noteq hp]
  have hg : (setObjExpression s o 0 tag0 ret).jvm.globals = s.jvm.globals := by rw [hj]
  exact
    { phase := by rw [hj]; exact h.phase
      tagRange := by
        intro p
        rw [htags, Function.update_apply]
        split_ifs
        · constructor <;> norm_num
        · exact h.tagRange p
      tagLive := by
        intro p hp
        obtain ⟨hpo, hp2⟩ := hne p hp
        rw [heq p hpo, hg]
        exact h.tagLive p hp2
      tagUnique := by
        intro p q hp hpq
        obtain ⟨hpo, hp2⟩ := hne p hp
        rw [heq p hpo] at hpq
        by_cases hqo : q = o
        · subst hqo
          rw [htags, Function.update_same, tagToPtr_zero] at hpq
          exact absurd hpq (h.tag_ne_zero p hp2)
        · rw [heq q hqo] at hpq
          exact h.tagUnique p q hp2 hpq
      queueLive := by
        rw [hg, set_deleteQueue]; exact h.queueLive
      queueNotTag := by
        intro r hr p hp
        rw [set_deleteQueue] at hr
        obtain ⟨hpo, hp2⟩ := hne p hp
        rw [heq p hpo]
        exact h.queueNotTag r hr p hp2
      queueNodup := by rw [set_deleteQueue]; exact h.queueNodup
      globalsNodup := by rw [hg]; exact h.globalsNodup
      globalsRef := by rw [hg]; exact h.globalsRef
      noDangling := by rw [hj]; exact h.noDangling }

/-- The live references left after `setObjExpression` has released the old tag
of `o`, in a state that satisfies the invariant. -/
theorem rest_mem (s : State) (o : Nat) (h : Inv s) (x : Nat) :
    x ∈ (if s.jvm.tags o = 0 ∨ tagToPtr (s.jvm.tags o) = 0 then s.jvm.globals
         else s.jvm.globals.erase (tagToPtr (s.jvm.tags o)))
      ↔ x ∈ s.jvm.globals ∧ (s.jvm.tags o ≠ 0 → x ≠ tagToPtr (s.jvm.tags o)) := by
  by_cases ht : s.jvm.tags o = 0
  · simp [ht]
  · have h0 := h.tag_ne_zero o ht
    simp only [ht, h0, or_self, if_false]
    rw [h.globalsNodup.mem_erase_iff]
    tauto

theorem rest_nodup (s : State) (o : Nat) (h : Inv s) :
    (if s.jvm.tags o = 0 ∨ tagToPtr (s.jvm.tags o) = 0 then s.jvm.globals
     else s.jvm.globals.erase (tagToPtr (s.jvm.tags o))).Nodup := by
  split_ifs
  · exact h.globalsNodup
  · exact h.globalsNodup.erase _

theorem set_value_inv (s : State) (o expr ret : Nat) (tag0 : Int) (h : Inv s)
    (hd : s.gdata.vmDead = false) (ho : o ≠ 0) (he : expr ≠ 0)
    (hr : ret < 2 ^ 64) (hfresh : ret ∈ s.jvm.globals → ret = tagToPtr (s.jvm.tags o)) :
    Inv (setObjExpression s o expr tag0 ret) := by
  have htags := set_tags s o expr ret tag0 hd ho h.phase he
  have hglob := set_globals s o expr ret tag0 hd ho h.phase he
  have hdang := set_danglingDeletes s o expr ret tag0 hd ho h.phase he
  have hrest := rest_mem s o h
  have hrnd := rest_nodup s o h
  -- the new reference is none of the references left
  have hnew : ret ∉ (if s.jvm.tags o = 0 ∨ tagToPtr (s.jvm.tags o) = 0 then s.jvm.globals
      else s.jvm.globals.erase (tagToPtr (s.jvm.tags o))) := by
    intro hm
    obtain ⟨hm1, hm2⟩ := (hrest ret).mp hm
    have hre := hfresh hm1
    by_cases ht : s.jvm.tags o = 0
    · rw [ht, tagToPtr_zero] at hre
      exact (h.globalsRef ret hm1).1 hre
    · exact hm2 ht hre
  have hmem : ∀ x, x ∈ (setObjExpression s o expr tag0 ret).jvm.globals ↔
      (ret ≠ 0 ∧ x = ret) ∨
        (x ∈ s.jvm.globals ∧ (s.jvm.tags o ≠ 0 → x ≠ tagToPtr (s.jvm.tags o))) := by
    intro x
    rw [hglob]
    by_cases hz : ret = 0
    · simp only [hz, if_true, hrest]
      simp
    · simp only [hz, if_false, List.mem_cons, hrest]
      simp [hz]
  -- a live reference equal to `ret` is the old tag of `o`
  have hold : ∀ x, x ∈ s.jvm.globals → x = ret →
      s.jvm.tags o ≠ 0 ∧ x = tagToPtr (s.jvm.tags o) := by
    intro x hx hxr
    subst hxr
    have hre := hfresh hx
    refine ⟨?_, hre⟩
    intro ht
    rw [ht, tagToPtr_zero] at hre
    exact (h.globalsRef x hx).1 hre
  have hnew_tag : (setObjExpression s o expr tag0 ret).jvm.tags o = ptrToTag ret := by
    rw [htags, Function.update_same]
  have heq : ∀ p, p ≠ o → (setObjExpression s o expr tag0 ret).jvm.tags p = s.jvm.tags p := by
    intro p hp
    rw [htags, Function.update_noteq hp]
  have hretne : ptrToTag ret ≠ 0 → ret ≠ 0 := by
    intro h1 h2
    exact h1 ((ptrToTag_eq_zero ret hr).mpr h2)
  exact
    { phase := set_wrongPhase s o expr ret tag0 hd ho h.phase
      tagRange := by
        intro p
        rw [htags, Function.update_apply]
        split_ifs
        · exact ptrToTag_range ret
        · exact h.tagRange p
      tagLive := by
        intro p hp
        rw [hmem]
        by_cases hpo : p = o
        · subst hpo
          rw [hnew_tag] at hp ⊢
          exact Or.inl ⟨hretne hp, tagToPtr_ptrToTag ret hr⟩
        · rw [heq p hpo] at hp ⊢
          refine Or.inr ⟨h.tagLive p hp, ?_⟩
          intro _ hc
          exact hpo (h.tagUnique p o hp hc)
      tagUnique := by
        intro p q hp hpq
        by_cases hpo : p = o
        · by_cases hqo : q = o
          · rw [hpo, hqo]
          · exfalso
            rw [hpo, hnew_tag] at hp
            rw [hpo, hnew_tag, heq q hqo, tagToPtr_ptrToTag ret hr] at hpq
            have hq0 : s.jvm.tags q ≠ 0 := by
              intro hq
              rw [hq, tagToPtr_zero] at hpq
              exact hretne hp hpq
            obtain ⟨ht, hx⟩ := hold _ (h.tagLive q hq0) hpq.symm
            exact hqo (h.tagUnique q o hq0 hx)
        · rw [heq p hpo] at hp hpq
          by_cases hqo : q = o
          · exfalso
            rw [hqo, hnew_tag, tagToPtr_ptrToTag ret hr] at hpq
            obtain ⟨ht, hx⟩ := hold _ (h.tagLive p hp) hpq
            exact hpo (h.tagUnique p o hp hx)
          · rw [heq q hqo] at hpq
            exact h.tagUnique p q hp hpq
      queueLive := by
        intro r hrq
        rw [set_deleteQueue] at hrq
        rw [hmem]
        refine Or.inr ⟨h.queueLive r hrq, ?_⟩
        intro ht hc
        exact h.queueNotTag r hrq o ht hc.symm
      queueNotTag := by
        intro r hrq p hp
        rw [set_deleteQueue] at hrq
        by_cases hpo : p = o
        · subst hpo
          rw [hnew_tag, tagToPtr_ptrToTag ret hr]
          intro hc
          obtain ⟨ht, hx⟩ := hold r (h.queueLive r hrq) hc.symm
          exact h.queueNotTag r hrq p ht hx.symm
        · rw [heq p hpo] at hp ⊢
          exact h.queueNotTag r hrq p hp
      queueNodup := by rw [set_deleteQueue]; exact h.queueNodup
      globalsNodup := by
        rw [hglob]
        by_cases hz : ret = 0
        · rw [if_pos hz]; exact hrnd
        · rw [if_neg hz]; exact List.nodup_cons.mpr ⟨hnew, hrnd⟩
      globalsRef := by
        intro x hx
        rcases (hmem x).mp hx with ⟨h1, h2⟩ | ⟨h1, _⟩
        · rw [h2]; exact ⟨h1, hr⟩
        · exact h.globalsRef x h1
      noDangling := by
        rw [hdang]
        split_ifs with hc
        · exact absurd (h.tagLive o hc.1) hc.2.2
        · exact h.noDangling }

theorem set_inv (s : State) (o expr ret : Nat) (tag0 : Int) (h : Inv s)
    (hok : Op.ok s (Op.set o expr tag0 ret)) :
    Inv (setObjExpression s o expr tag0 ret) := by
  by_cases hd : s.gdata.vmDead = true
  · simpa [setObjExpression, hd] using h
  · by_cases ho : o = 0
    · simpa [setObjExpression, hd, ho] using h
    · have hd2 : s.gdata.vmDead = false := by simpa using hd
      by_cases he : expr = 0
      · subst he
        exact set_null_inv s o ret tag0 h hd2 ho
      · exact set_value_inv s o expr ret tag0 h hd2 ho he hok.1 hok.2

theorem step_inv (s : State) (op : Op) (h : Inv s) (hok : Op.ok s op) : Inv (step s op) := by
  cases op with
  | set o expr tag0 ret => exact set_inv s o expr ret tag0 h hok
  | get o tag0 => exact get_inv s o tag0 h
  | free o => exact collect_inv s o h
  | gcFinish => exact gc_finish_inv s h
  | work => exact gcWorker_inv s h
  | wake err => exact resume_inv s err h
  | death => exact death_inv s h

theorem run_inv (ops : List Op) (s : State) (h : Inv s) (hok : okRun s ops) :
    Inv (run s ops) := by
  induction ops generalizing s with
  | nil => exact h
  | cons op ops ih => exact ih _ (step_inv s op h hok.1) hok.2

/-- The ownership invariant while tag calls are permitted.  In every state
reached from the initial state by any sequence of `setObjExpression`,
`getObjExpression`, collections of an object (`cbObjectFree` called with the
object's current tag, the object leaving the tag map), `gc_finish`, worker steps
and `callbackVMDeath`, where every `NewGlobalRef` returns a reference that is
not alive at that moment: every non-zero tag is a live reference; no two
objects carry the same reference; every deletion-queue entry is live, is not
the tag of any object and occurs in the queue once; the live references are
distinct; and `DeleteGlobalRef` was never called on a reference that was not
alive. -/
theorem ownership_invariant (ops : List Op) (hok : okRun init ops) :
    (∀ o, (run init ops).jvm.tags o ≠ 0 →
      tagToPtr ((run init ops).jvm.tags o) ∈ (run init ops).jvm.globals) ∧
    (∀ o p, (run init ops).jvm.tags o ≠ 0 →
      tagToPtr ((run init ops).jvm.tags o) = tagToPtr ((run init ops).jvm.tags p) → o = p) ∧
    (∀ r ∈ (run init ops).deleteQueue,
      r ∈ (run init ops).jvm.globals ∧
      (∀ o, (run init ops).jvm.tags o ≠ 0 → tagToPtr ((run init ops).jvm.tags o) ≠ r) ∧
      (run init ops).deleteQueue.count r = 1) ∧
    (run init ops).jvm.globals.Nodup ∧
    (run init ops).jvm.danglingDeletes = [] := by
  have h := run_inv ops init init_inv hok
  refine ⟨h.tagLive, h.tagUnique, ?_, h.globalsNodup, h.noDangling⟩
  intro r hr
  exact ⟨h.queueLive r hr, h.queueNotTag r hr, List.count_eq_one_of_mem h.queueNodup hr⟩

set_option maxRecDepth 100000 in
theorem ownership_invariant_example :
    okRun init [Op.set 7 9 0 100, Op.set 8 9 0 200, Op.set 7 11 0 100, Op.free 7,
      Op.set 8 0 0 0, Op.gcFinish, Op.work] ∧
    (run init [Op.set 7 9 0 100, Op.set 8 9 0 200, Op.set 7 11 0 100, Op.free 7,
      Op.set 8 0 0 0, Op.gcFinish, Op.work]).jvm.globals = [200] ∧
    (run init [Op.set 7 9 0 100, Op.set 8 9 0 200, Op.set 7 11 0 100, Op.free 7,
      Op.set 8 0 0 0, Op.gcFinish, Op.work]).jvm.danglingDeletes = [] :=
  ⟨by simp only [okRun, Op.ok, and_true]; decide,
   by decide,
   (ownership_invariant [Op.set 7 9 0 100, Op.set 8 9 0 200, Op.set 7 11 0 100,
      Op.free 7, Op.set 8 0 0 0, Op.gcFinish, Op.work]
      (by simp only [okRun, Op.ok, and_true]; decide)).2.2.2.2⟩

set_option maxRecDepth 100000 in
/-- C5 (handle ownership invariant), evaluated on the code.  The invariant does
not hold in every reachable state: when `GetTag`/`SetTag` answer
`JVMTI_ERROR_WRONG_PHASE`, `setObjExpression` deletes whatever its unwritten
local `tag` holds.  Starting with no tag, no reference and an empty queue, the
VM not dead, and every `NewGlobalRef` returning a reference that is not alive,
three calls of `setObjExpression` on non-null objects create `100`, `200` and
`300` and call `DeleteGlobalRef(100)` twice, the second time on a reference that
is no longer alive.  And with `100` installed as the tag of object `7`, a call
on object `8` deletes `100`: the tag of `7` still names it, it is no longer
alive, and `getObjExpression(7)` returns it once tag calls are permitted
again. -/
theorem C5_wrong_phase_breaks_ownership :
    ({ init with jvm := { init.jvm with wrongPhase := true } }).jvm.globals = [] ∧
    ({ init with jvm := { init.jvm with wrongPhase := true } }).deleteQueue = [] ∧
    (∀ o, ({ init with jvm := { init.jvm with wrongPhase := true } }).jvm.tags o = 0) ∧
    ({ init with jvm := { init.jvm with wrongPhase := true } }).gdata.vmDead = false ∧
    okRun { init with jvm := { init.jvm with wrongPhase := true } }
      [Op.set 7 9 0 100, Op.set 8 9 100 200, Op.set 9 9 100 300] ∧
    creations (run { init with jvm := { init.jvm with wrongPhase := true } }
      [Op.set 7 9 0 100, Op.set 8 9 100 200, Op.set 9 9 100 300]).jvm.log = [100, 200, 300] ∧
    releases (run { init with jvm := { init.jvm with wrongPhase := true } }
      [Op.set 7 9 0 100, Op.set 8 9 100 200, Op.set 9 9 100 300]).jvm.log = [100, 100] ∧
    (run { init with jvm := { init.jvm with wrongPhase := true } }
      [Op.set 7 9 0 100, Op.set 8 9 100 200, Op.set 9 9 100 300]).jvm.danglingDeletes = [100] ∧
    tagToPtr ((setObjExpression init 7 9 0 100).jvm.tags 7) = 100 ∧
    (setObjExpression init 7 9 0 100).jvm.globals = [100] ∧
    tagToPtr ((setObjExpression
        { setObjExpression init 7 9 0 100 with
          jvm := { (setObjExpression init 7 9 0 100).jvm with wrongPhase := true } }
        8 11 100 200).jvm.tags 7) = 100 ∧
    (setObjExpression
        { setObjExpression init 7 9 0 100 with
          jvm := { (setObjExpression init 7 9 0 100).jvm with wrongPhase := true } }
        8 11 100 200).jvm.globals = [200] ∧
    (getObjExpression
        { setObjExpression
            { setObjExpression init 7 9 0 100 with
          jvm := { (setObjExpression init 7 9 0 100).jvm with wrongPhase := true } }
            8 11 100 200 with
          jvm := { (setObjExpression
            { setObjExpression init 7 9 0 100 with
          jvm := { (setObjExpression init 7 9 0 100).jvm with wrongPhase := true } }
            8 11 100 200).jvm with wrongPhase := false } } 7 0).2 = 100 := by
  refine ⟨rfl, rfl, fun _ => rfl, rfl, ?_, by decide, by decide, by decide, by decide,
    by decide, by decide, by decide, by decide⟩
  simp only [okRun, Op.ok, and_true]
  decide

/-! ## C2: release on overwrite -/

/-- C2 as stated fails: object `7` carries the live reference `100`, but once
`vmDead` is set `setObjExpression(7, 11)` releases nothing, creates nothing and
leaves the tag at `100`; and when tag calls answer `JVMTI_ERROR_WRONG_PHASE` it
does not release `100`, the tag stays `100`, and the live references grow from
one to two. -/
theorem C2_counterexample :
    (setObjExpression init 7 9 0 100).jvm.tags 7 = ptrToTag 100 ∧
    (setObjExpression init 7 9 0 100).jvm.globals = [100] ∧
    releases (newCalls (callbackVMDeath (setObjExpression init 7 9 0 100))
      (setObjExpression (callbackVMDeath (setObjExpression init 7 9 0 100)) 7 11 0 200)) = [] ∧
    creations (newCalls (callbackVMDeath (setObjExpression init 7 9 0 100))
      (setObjExpression (callbackVMDeath (setObjExpression init 7 9 0 100)) 7 11 0 200)) = [] ∧
    (setObjExpression (callbackVMDeath (setObjExpression init 7 9 0 100)) 7 11 0 200).jvm.tags 7
      = ptrToTag 100 ∧
    releases (newCalls
      { setObjExpression init 7 9 0 100 with
        jvm := { (setObjExpression init 7 9 0 100).jvm with wrongPhase := true } }
      (setObjExpression
        { setObjExpression init 7 9 0 100 with
          jvm := { (setObjExpression init 7 9 0 100).jvm with wrongPhase := true } }
        7 11 0 200)) = [] ∧
    (setObjExpression
        { setObjExpression init 7 9 0 100 with
          jvm := { (setObjExpression init 7 9 0 100).jvm with wrongPhase := true } }
        7 11 0 200).jvm.globals = [200, 100] ∧
    (setObjExpression
        { setObjExpression init 7 9 0 100 with
          jvm := { (setObjExpression init 7 9 0 100).jvm with wrongPhase := true } }
        7 11 0 200).jvm.tags 7 = ptrToTag 100 := by
  refine ⟨by decide, by decide, by decide, by decide, by decide, by decide, by decide, by decide⟩

/-- C2, amended (release on overwrite).  With the VM not dead and the runtime
permitting tag calls, for every non-null object `o` whose tag is the live
non-null reference `hA` and every non-null value `b` for which `NewGlobalRef`
returns the reference `ret`: `setObjExpression(o, b)` makes exactly the calls
`GetTag(o)`, `DeleteGlobalRef(hA)`, `NewGlobalRef(b)`, `SetTag(o, ret)` in this
order, so `hA` is released once and before `ret` is installed, and one
reference is created; afterwards the tag of `o` is `ret`, the tags of the
other objects are unchanged, the live references are `ret` and the former ones
without `hA`, and their number is the same as before. -/
theorem C2_release_on_overwrite (s : State) (o b hA ret : Nat) (tag0 : Int)
    (hd : s.gdata.vmDead = false) (hp : s.jvm.wrongPhase = false)
    (ho : o ≠ 0) (hb : b ≠ 0)
    (htag : s.jvm.tags o = ptrToTag hA) (hA0 : hA ≠ 0) (hA64 : hA < 2 ^ 64)
    (hlive : hA ∈ s.jvm.globals)
    (hret0 : ret ≠ 0) (hret : ret < 2 ^ 64) :
    newCalls s (setObjExpression s o b tag0 ret)
      = [Call.GetTag o, Call.DeleteGlobalRef hA, Call.NewGlobalRef b ret,
         Call.SetTag o (ptrToTag ret)] ∧
    releases (newCalls s (setObjExpression s o b tag0 ret)) = [hA] ∧
    creations (newCalls s (setObjExpression s o b tag0 ret)) = [ret] ∧
    tagToPtr ((setObjExpression s o b tag0 ret).jvm.tags o) = ret ∧
    (∀ p, p ≠ o → (setObjExpression s o b tag0 ret).jvm.tags p = s.jvm.tags p) ∧
    (setObjExpression s o b tag0 ret).jvm.globals = ret :: s.jvm.globals.erase hA ∧
    (setObjExpression s o b tag0 ret).jvm.globals.length = s.jvm.globals.length ∧
    (setObjExpression s o b tag0 ret).jvm.danglingDeletes = s.jvm.danglingDeletes ∧
    (setObjExpression s o b tag0 ret).deleteQueue = s.deleteQueue := by
  have ht0 : s.jvm.tags o ≠ 0 := by
    rw [htag]
    intro h0
    exact hA0 ((ptrToTag_eq_zero hA hA64).mp h0)
  have hptr : tagToPtr (s.jvm.tags o) = hA := by rw [htag, tagToPtr_ptrToTag hA hA64]
  have hlog : newCalls s (setObjExpression s o b tag0 ret)
      = [Call.GetTag o, Call.DeleteGlobalRef hA, Call.NewGlobalRef b ret,
         Call.SetTag o (ptrToTag ret)] := by
    simp [newCalls, set_log s o b ret tag0 hd ho hp hb, ht0, hptr]
  have hglob : (setObjExpression s o b tag0 ret).jvm.globals = ret :: s.jvm.globals.erase hA := by
    rw [set_globals s o b ret tag0 hd ho hp hb, hptr]
    simp [hret0, ht0, hA0]
  refine ⟨hlog, ?_, ?_, ?_, ?_, hglob, ?_, ?_, by simp⟩
  · rw [hlog]; simp [releases]
  · rw [hlog]; simp [creations, hret0]
  · rw [set_tags s o b ret tag0 hd ho hp hb, Function.update_same, tagToPtr_ptrToTag ret hret]
  · intro p hpo
    rw [set_tags s o b ret tag0 hd ho hp hb, Function.update_noteq hpo]
  · rw [hglob, List.length_cons, List.length_erase_of_mem hlive]
    have := List.length_pos_of_mem hlive
    omega
  · rw [set_danglingDeletes s o b ret tag0 hd ho hp hb, hptr]
    simp [hlive]

theorem C2_release_on_overwrite_witness :
    newCalls (setObjExpression init 7 9 0 100)
        (setObjExpression (setObjExpression init 7 9 0 100) 7 11 0 200)
      = [Call.GetTag 7, Call.DeleteGlobalRef 100, Call.NewGlobalRef 11 200,
         Call.SetTag 7 (ptrToTag 200)] :=
  (C2_release_on_overwrite (setObjExpression init 7 9 0 100) 7 11 100 200 0
    rfl rfl (by decide) (by decide) (by decide) (by decide) (by decide) (by decide)
    (by decide) (by decide)).1

/-! ## C9: explicit clear -/

/-- C9 as stated fails: object `7` carries the live reference `100`, but once
`vmDead` is set, or when tag calls answer `JVMTI_ERROR_WRONG_PHASE`,
`setObjExpression(7, NULL)` leaves the tag of `7` at `100`. -/
theorem C9_counterexample :
    (setObjExpression init 7 9 0 100).jvm.tags 7 = ptrToTag 100 ∧
    ptrToTag 100 ≠ 0 ∧
    (setObjExpression (callbackVMDeath (setObjExpression init 7 9 0 100)) 7 0 0 0).jvm.tags 7
      = ptrToTag 100 ∧
    (setObjExpression
        { setObjExpression init 7 9 0 100 with
          jvm := { (setObjExpression init 7 9 0 100).jvm with wrongPhase := true } }
        7 0 0 0).jvm.tags 7 = ptrToTag 100 := by
  refine ⟨by decide, by decide, by decide, by decide⟩

/-- C9, amended (explicit clear does not release).  With the VM not dead and the
runtime permitting tag calls, for every non-null object `o` whose tag is the
live reference `h`: `setObjExpression(o, NULL)` makes the single call
`SetTag(o, 0)`; the tag of `o` becomes zero and the tags of all other objects
are unchanged; no reference is released and none created; `h` is still alive,
and the live references and the deletion queue are unchanged. -/
theorem C9_clear_does_not_release (s : State) (o h ret : Nat) (tag0 : Int)
    (hd : s.gdata.vmDead = false) (hp : s.jvm.wrongPhase = false) (ho : o ≠ 0)
    (_htag : s.jvm.tags o = ptrToTag h) (hlive : h ∈ s.jvm.globals) :
    newCalls s (setObjExpression s o 0 tag0 ret) = [Call.SetTag o 0] ∧
    releases (newCalls s (setObjExpression s o 0 tag0 ret)) = [] ∧
    creations (newCalls s (setObjExpression s o 0 tag0 ret)) = [] ∧
    (setObjExpression s o 0 tag0 ret).jvm.tags o = 0 ∧
    (∀ p, p ≠ o → (setObjExpression s o 0 tag0 ret).jvm.tags p = s.jvm.tags p) ∧
    h ∈ (setObjExpression s o 0 tag0 ret).jvm.globals ∧
    (setObjExpression s o 0 tag0 ret).jvm.globals = s.jvm.globals ∧
    (setObjExpression s o 0 tag0 ret).jvm.danglingDeletes = s.jvm.danglingDeletes ∧
    (setObjExpression s o 0 tag0 ret).deleteQueue = s.deleteQueue := by
  have hj := set_null_jvm s o ret tag0 hd ho hp
  have hlog : newCalls s (setObjExpression s o 0 tag0 ret) = [Call.SetTag o 0] := by
    simp [newCalls, hj]
  refine ⟨hlog, ?_, ?_, ?_, ?_, ?_, ?_, ?_, by simp⟩
  · rw [hlog]; simp [releases]
  · rw [hlog]; simp [creations]
  · rw [hj]; simp
  · intro p hpo
    rw [hj]; simp [Function.update_noteq hpo]
  · rw [hj]; exact hlive
  · rw [hj]
  · rw [hj]

theorem C9_clear_does_not_release_witness :
    (setObjExpression (setObjExpression init 7 9 0 100) 7 0 0 0).jvm.tags 7 = 0 ∧
    100 ∈ (setObjExpression (setObjExpression init 7 9 0 100) 7 0 0 0).jvm.globals :=
  ⟨(C9_clear_does_not_release (setObjExpression init 7 9 0 100) 7 100 0 0
      rfl rfl (by decide) (by decide) (by decide)).2.2.2.1,
   (C9_clear_does_not_release (setObjExpression init 7 9 0 100) 7 100 0 0
      rfl rfl (by decide) (by decide) (by decide)).2.2.2.2.2.1⟩

/-! ## The worker's pass -/

section pass

theorem releases_append (a b : List Call) : releases (a ++ b) = releases a ++ releases b := by
  induction a with
  | nil => rfl
  | cons c a ih => cases c <;> simp [releases, ih]

theorem creations_append (a b : List Call) :
    creations (a ++ b) = creations a ++ creations b := by
  induction a with
  | nil => rfl
  | cons c a ih =>
    cases c <;> simp [creations, ih]
    split_ifs <;> simp

@[simp] theorem releases_drainCalls (q : List Nat) : releases (drainCalls q) = q := by
  induction q with
  | nil => rfl
  | cons r q ih => simp [drainCalls, releases, ih]

@[simp] theorem creations_drainCalls (q : List Nat) : creations (drainCalls q) = [] := by
  induction q with
  | nil => rfl
  | cons r q ih => simp [drainCalls, creations, ih]

theorem wrapInt32_succ_ne_zero (g : Int) (h0 : 0 ≤ g) (h1 : g < 2 ^ 31) :
    wrapInt32 (g + 1) ≠ 0 := by
  unfold wrapInt32
  omega

variable (s : State)

theorem while_log (hg : s.gc_count ≠ 0) :
    (gcWorker_while s).jvm.log
      = s.jvm.log ++ Call.RawMonitorExit Monitor.gcLock :: drainCalls s.deleteQueue := by
  simp [gcWorker_while, hg]

theorem while_deleteQueue (hg : s.gc_count ≠ 0) : (gcWorker_while s).deleteQueue = [] := by
  simp only [gcWorker_while, hg, if_false]
  exact drain_deleteQueue _ _ rfl

theorem pass_log (hw : s.worker ≠ WorkerPC.returned) (hg : s.gc_count ≠ 0) :
    (gcWorker_pass s).jvm.log
      = s.jvm.log ++ ((if s.worker = WorkerPC.loopTop
            then [Call.RawMonitorEnter Monitor.gcLock] else [])
          ++ Call.RawMonitorExit Monitor.gcLock :: drainCalls s.deleteQueue) := by
  unfold gcWorker_pass
  cases hws : s.worker with
  | loopTop =>
    simp only [gcWorker, hws]
    rw [while_log _ (by simpa using hg)]
    simp
  | waiting =>
    simp only [gcWorker_resume, hws]
    rw [if_neg (by simp), while_log _ hg]
    simp
  | returned => exact absurd hws hw

theorem pass_deleteQueue (hw : s.worker ≠ WorkerPC.returned) (hg : s.gc_count ≠ 0) :
    (gcWorker_pass s).deleteQueue = [] := by
  unfold gcWorker_pass
  cases hws : s.worker with
  | loopTop =>
    simp only [gcWorker, hws]
    exact while_deleteQueue _ (by simpa using hg)
  | waiting =>
    simp only [gcWorker_resume, hws]
    rw [if_neg (by simp)]
    exact while_deleteQueue _ hg
  | returned => exact absurd hws hw

theorem pass_releases (hw : s.worker ≠ WorkerPC.returned) (hg : s.gc_count ≠ 0) :
    releases (newCalls s (gcWorker_pass s)) = s.deleteQueue ∧
    creations (newCalls s (gcWorker_pass s)) = [] := by
  rw [newCalls, pass_log s hw hg, List.drop_left]
  constructor
  · rw [releases_append]
    split_ifs <;> simp [releases]
  · rw [creations_append]
    split_ifs <;> simp [creations]

theorem pass_inv (h : Inv s) : Inv (gcWorker_pass s) := by
  unfold gcWorker_pass
  split
  · exact gcWorker_inv s h
  · exact resume_inv s _ h
  · exact h

theorem free_log (tag : Int) : (cbObjectFree s tag).jvm.log
    = s.jvm.log ++ (if s.gdata.vmDead = true ∨ tag = 0 then []
        else [Call.RawMonitorEnter Monitor.deleteQueueLock,
              Call.RawMonitorExit Monitor.deleteQueueLock]) := by
  by_cases hd : s.gdata.vmDead = true
  · simp [cbObjectFree, hd]
  · by_cases ht : tag = 0 <;> simp [cbObjectFree, hd, ht]

theorem collect_log (o : Nat) : (collect s o).jvm.log
    = s.jvm.log ++ (if s.gdata.vmDead = true ∨ s.jvm.tags o = 0 then []
        else [Call.RawMonitorEnter Monitor.deleteQueueLock,
              Call.RawMonitorExit Monitor.deleteQueueLock]) := by
  simp only [collect]
  by_cases ht : s.jvm.tags o = 0
  · simp [ht]
  · simp [ht, free_log]

end pass

/-! ## C4: the drain is complete -/

theorem free_all (tags : List Int) (s : State) (hd : s.gdata.vmDead = false)
    (hnz : ∀ t ∈ tags, t ≠ 0) :
    (tags.foldl cbObjectFree s).deleteQueue = (tags.map tagToPtr).reverse ++ s.deleteQueue ∧
    (tags.foldl cbObjectFree s).gdata = s.gdata ∧
    (tags.foldl cbObjectFree s).gc_count = s.gc_count ∧
    (tags.foldl cbObjectFree s).worker = s.worker ∧
    (tags.foldl cbObjectFree s).jvm.globals = s.jvm.globals ∧
    (tags.foldl cbObjectFree s).jvm.tags = s.jvm.tags ∧
    ∃ l, (tags.foldl cbObjectFree s).jvm.log = s.jvm.log ++ l ∧
      releases l = [] ∧ creations l = [] := by
  induction tags generalizing s with
  | nil => exact ⟨by simp, rfl, rfl, rfl, rfl, rfl, [], by simp, rfl, rfl⟩
  | cons t tags ih =>
    have ht : t ≠ 0 := hnz t (List.mem_cons_self _ _)
    have hd2 : (cbObjectFree s t).gdata.vmDead = false := by simpa using hd
    obtain ⟨h1, h2, h3, h4, h5, h6, l, h7, h8, h9⟩ :=
      ih (cbObjectFree s t) hd2 (fun x hx => hnz x (List.mem_cons_of_mem _ hx))
    simp only [List.foldl_cons]
    refine ⟨?_, ?_, ?_, ?_, ?_, ?_, ?_⟩
    · rw [h1, free_deleteQueue]
      simp [hd, ht]
    · rw [h2]; simp
    · rw [h3]; simp
    · rw [h4]; simp
    · rw [h5]; simp
    · rw [h6]; simp
    · refine ⟨[Call.RawMonitorEnter Monitor.deleteQueueLock,
          Call.RawMonitorExit Monitor.deleteQueueLock] ++ l, ?_, ?_, ?_⟩
      · rw [h7, free_log]
        simp [hd, ht]
      · rw [releases_append, h8]; rfl
      · rw [creations_append, h9]; rfl

/-- C4 as stated fails: once `vmDead` is set, `cbObjectFree(5)` queues nothing,
so after `gc_finish` the worker's pass releases nothing instead of the
reference `5`.  (It also fails in the state `gc_count = -1`, which takes
`2^32 - 1` unanswered `gc_finish` calls to reach: `gc_finish` wraps the counter
to `0`, the worker blocks, and the entry stays queued.) -/
theorem C4_counterexample :
    (callbackVMDeath init).deleteQueue = [] ∧
    tagToPtr 5 = 5 ∧
    (cbObjectFree (callbackVMDeath init) 5).deleteQueue = [] ∧
    releases (newCalls (callbackVMDeath init)
      (gcWorker_pass (gc_finish (cbObjectFree (callbackVMDeath init) 5)))) = [] ∧
    releases (newCalls { init with gc_count := -1 }
      (gcWorker_pass (gc_finish (cbObjectFree { init with gc_count := -1 } 5)))) = [] ∧
    (gcWorker_pass (gc_finish (cbObjectFree { init with gc_count := -1 } 5))).deleteQueue
      = [5] := by
  refine ⟨by decide, by decide, by decide, by decide, by decide, by decide⟩

/-- C4, amended (queue drain completeness).  With the VM not dead, a worker that
has not returned, and a signal counter that is a non-negative `int`: for every
list of non-zero tags passed to `cbObjectFree` one after the other, starting
from an empty deletion queue, the queue then holds their references; after one
`gc_finish` the worker's next pass calls `DeleteGlobalRef` on exactly these
references, each queued entry once (in the reverse order of arrival), and
leaves the queue empty; nothing is released before that pass. -/
theorem C4_queue_drain_completeness (s : State) (tags : List Int)
    (hd : s.gdata.vmDead = false) (hq : s.deleteQueue = [])
    (hw : s.worker ≠ WorkerPC.returned)
    (hg0 : 0 ≤ s.gc_count) (hg1 : s.gc_count < 2 ^ 31)
    (hnz : ∀ t ∈ tags, t ≠ 0) :
    (tags.foldl cbObjectFree s).deleteQueue = (tags.map tagToPtr).reverse ∧
    releases (newCalls s (gc_finish (tags.foldl cbObjectFree s))) = [] ∧
    releases (newCalls (gc_finish (tags.foldl cbObjectFree s))
        (gcWorker_pass (gc_finish (tags.foldl cbObjectFree s))))
      = (tags.map tagToPtr).reverse ∧
    List.Perm (releases (newCalls (gc_finish (tags.foldl cbObjectFree s))
        (gcWorker_pass (gc_finish (tags.foldl cbObjectFree s)))))
      (tags.map tagToPtr) ∧
    (releases (newCalls (gc_finish (tags.foldl cbObjectFree s))
        (gcWorker_pass (gc_finish (tags.foldl cbObjectFree s))))).length = tags.length ∧
    (gcWorker_pass (gc_finish (tags.foldl cbObjectFree s))).deleteQueue = [] := by
  obtain ⟨h1, _, h3, h4, _, _, l, h7, h8, _⟩ := free_all tags s hd hnz
  rw [hq, List.append_nil] at h1
  have hw2 : (gc_finish (tags.foldl cbObjectFree s)).worker ≠ WorkerPC.returned := by
    rw [gc_finish_worker, h4]; exact hw
  have hg2 : (gc_finish (tags.foldl cbObjectFree s)).gc_count ≠ 0 := by
    rw [gc_finish_gc_count, h3]; exact wrapInt32_succ_ne_zero _ hg0 hg1
  have hrel := (pass_releases _ hw2 hg2).1
  rw [gc_finish_deleteQueue, h1] at hrel
  refine ⟨h1, ?_, hrel, ?_, ?_, pass_deleteQueue _ hw2 hg2⟩
  · rw [newCalls, gc_finish_jvm]
    simp only [h7, List.append_assoc, List.drop_left]
    rw [releases_append, h8]
    rfl
  · rw [hrel]; exact List.reverse_perm _
  · rw [hrel]; simp

theorem C4_queue_drain_completeness_witness :
    releases (newCalls (gc_finish ([100, 200, 300].foldl cbObjectFree init))
        (gcWorker_pass (gc_finish ([100, 200, 300].foldl cbObjectFree init))))
      = ([100, 200, 300].map tagToPtr).reverse :=
  (C4_queue_drain_completeness init [100, 200, 300] rfl rfl (by decide) (by decide)
    (by decide) (by decide)).2.2.1

/-! ## C3: no leak on collection -/

theorem while_globals (s : State) (h : Inv s) (hg : s.gc_count ≠ 0) (x : Nat) :
    x ∈ (gcWorker_while s).jvm.globals ↔ x ∈ s.jvm.globals ∧ x ∉ s.deleteQueue := by
  have hs2 : Inv (monitorCall { s with gc_count := 0 } JVM.RawMonitorExit Monitor.gcLock
      "raw monitor exit") := h.congr (by simp) (by simp) (by simp) (by simp) (by simp)
  have hd := drain_globals _ _ hs2.queueNodup
    (fun r hr => ⟨(hs2.globalsRef r (hs2.queueLive r hr)).1, hs2.queueLive r hr⟩)
    hs2.globalsNodup
  simp only [gcWorker_while, hg, if_false]
  rw [hd.2.2 x]
  simp

theorem pass_globals (s : State) (h : Inv s) (hw : s.worker ≠ WorkerPC.returned)
    (hg : s.gc_count ≠ 0) (x : Nat) :
    x ∈ (gcWorker_pass s).jvm.globals ↔ x ∈ s.jvm.globals ∧ x ∉ s.deleteQueue := by
  unfold gcWorker_pass
  cases hws : s.worker with
  | loopTop =>
    simp only [gcWorker, hws]
    rw [while_globals _ (h.congr (by simp) (by simp) (by simp) (by simp) (by simp))
      (by simpa using hg)]
    simp
  | waiting =>
    simp only [gcWorker_resume, hws]
    rw [if_neg (by simp), while_globals _ h hg]
  | returned => exact absurd hws hw

/-- C3 as stated fails in its last clause.  Starting from the initial state,
object `8` is tagged (reference `100`) and object `7` is tagged (reference
`200`).  Then `setObjExpression(7, 11)` installs `300`, object `7` is
collected, `gc_finish` is called and the worker makes its pass.  Reference
`300` is released exactly once and the queue is empty, but over these calls one
reference was created and two were released (`200` on overwrite, `300` by the
worker), and since the initial state three were created and two released. -/
theorem C3_counterexample :
    tagToPtr ((run init [Op.set 8 9 0 100, Op.set 7 9 0 200, Op.set 7 11 0 300]).jvm.tags 7)
      = 300 ∧
    (run (run init [Op.set 8 9 0 100, Op.set 7 9 0 200, Op.set 7 11 0 300])
      [Op.free 7, Op.gcFinish, Op.work]).deleteQueue = [] ∧
    releases (newCalls (run init [Op.set 8 9 0 100, Op.set 7 9 0 200, Op.set 7 11 0 300])
      (run init [Op.set 8 9 0 100, Op.set 7 9 0 200, Op.set 7 11 0 300,
        Op.free 7, Op.gcFinish, Op.work])) = [300] ∧
    creations (newCalls (run init [Op.set 8 9 0 100, Op.set 7 9 0 200])
      (run init [Op.set 8 9 0 100, Op.set 7 9 0 200, Op.set 7 11 0 300,
        Op.free 7, Op.gcFinish, Op.work])) = [300] ∧
    releases (newCalls (run init [Op.set 8 9 0 100, Op.set 7 9 0 200])
      (run init [Op.set 8 9 0 100, Op.set 7 9 0 200, Op.set 7 11 0 300,
        Op.free 7, Op.gcFinish, Op.work])) = [200, 300] ∧
    creations (run init [Op.set 8 9 0 100, Op.set 7 9 0 200, Op.set 7 11 0 300,
        Op.free 7, Op.gcFinish, Op.work]).jvm.log = [100, 200, 300] ∧
    releases (run init [Op.set 8 9 0 100, Op.set 7 9 0 200, Op.set 7 11 0 300,
        Op.free 7, Op.gcFinish, Op.work]).jvm.log = [200, 300] := by
  refine ⟨by decide, by decide, by decide, by decide, by decide, by decide, by decide⟩

/-- C3, amended (no leak on collection).  In every state `s` reached from the
initial state (with `NewGlobalRef` never returning a live reference), with the
VM not dead, a worker that has not returned and a signal counter that is a
non-negative `int`: if `setObjExpression(o, v)` for non-null `o` and `v`
installs the reference `ret`, `o` is then collected (`cbObjectFree` receives
the tag `ret` and queues it), `gc_finish` is called once and the worker makes
its next pass, then after its creation `ret` has been released exactly once, it
is no longer alive and the deletion queue is empty, and no reference was ever
deleted while not alive.  That pass releases `ret` and the entries that were
queued before; counted over these calls, the releases are the creations (one)
plus one if `o` carried a tag before plus the number of entries queued
before, so the two counts agree exactly when `o` was untagged and the queue
was empty. -/
theorem C3_no_leak_on_collection (s : State) (ops : List Op) (hok : okRun init ops)
    (hs : s = run init ops) (o v ret : Nat) (tag0 : Int)
    (hd : s.gdata.vmDead = false) (ho : o ≠ 0) (hv : v ≠ 0)
    (hret0 : ret ≠ 0) (hret : ret < 2 ^ 64)
    (hfresh : ret ∈ s.jvm.globals → ret = tagToPtr (s.jvm.tags o))
    (hw : s.worker ≠ WorkerPC.returned)
    (hg0 : 0 ≤ s.gc_count) (hg1 : s.gc_count < 2 ^ 31) :
    tagToPtr ((setObjExpression s o v tag0 ret).jvm.tags o) = ret ∧
    creations (newCalls s (setObjExpression s o v tag0 ret)) = [ret] ∧
    (collect (setObjExpression s o v tag0 ret) o).deleteQueue = ret :: s.deleteQueue ∧
    releases (newCalls (setObjExpression s o v tag0 ret) (gcWorker_pass (gc_finish (collect (setObjExpression s o v tag0 ret) o)))) = ret :: s.deleteQueue ∧
    (releases (newCalls (setObjExpression s o v tag0 ret) (gcWorker_pass (gc_finish (collect (setObjExpression s o v tag0 ret) o))))).count ret = 1 ∧
    creations (newCalls (setObjExpression s o v tag0 ret) (gcWorker_pass (gc_finish (collect (setObjExpression s o v tag0 ret) o)))) = [] ∧
    (gcWorker_pass (gc_finish (collect (setObjExpression s o v tag0 ret) o))).deleteQueue = [] ∧
    ret ∉ (gcWorker_pass (gc_finish (collect (setObjExpression s o v tag0 ret) o))).jvm.globals ∧
    (gcWorker_pass (gc_finish (collect (setObjExpression s o v tag0 ret) o))).jvm.danglingDeletes = [] ∧
    (releases (newCalls s (gcWorker_pass (gc_finish (collect (setObjExpression s o v tag0 ret) o))))).length
      = (creations (newCalls s (gcWorker_pass (gc_finish (collect (setObjExpression s o v tag0 ret) o))))).length
        + (if s.jvm.tags o = 0 then 0 else 1) + s.deleteQueue.length ∧
    (s.jvm.tags o = 0 → s.deleteQueue = [] →
      (releases (newCalls s (gcWorker_pass (gc_finish (collect (setObjExpression s o v tag0 ret) o))))).length = (creations (newCalls s (gcWorker_pass (gc_finish (collect (setObjExpression s o v tag0 ret) o))))).length) := by
  have hinv : Inv s := hs ▸ run_inv ops init init_inv hok
  have hp := hinv.phase
  have hinv1 : Inv (setObjExpression s o v tag0 ret) := set_value_inv s o v ret tag0 hinv hd ho hv hret hfresh
  have htag1 : (setObjExpression s o v tag0 ret).jvm.tags o = ptrToTag ret := by
    rw [set_tags s o v ret tag0 hd ho hp hv, Function.update_same]
  have htag1ne : (setObjExpression s o v tag0 ret).jvm.tags o ≠ 0 := by
    rw [htag1]
    intro h0
    exact hret0 ((ptrToTag_eq_zero ret hret).mp h0)
  have hd1 : (setObjExpression s o v tag0 ret).gdata.vmDead = false := by simpa using hd
  have hlog1 := set_log s o v ret tag0 hd ho hp hv
  have hq2 : (collect (setObjExpression s o v tag0 ret) o).deleteQueue = ret :: s.deleteQueue := by
    rw [collect_deleteQueue, htag1, tagToPtr_ptrToTag ret hret]
    rw [htag1] at htag1ne
    simp [hd, htag1ne]
  have hlog2 := collect_log (setObjExpression s o v tag0 ret) o
  rw [if_neg (by simp [hd, htag1ne])] at hlog2
  have hinv3 : Inv (gc_finish (collect (setObjExpression s o v tag0 ret) o)) := gc_finish_inv _ (collect_inv _ o hinv1)
  have hw3 : (gc_finish (collect (setObjExpression s o v tag0 ret) o)).worker ≠ WorkerPC.returned := by
    simpa using hw
  have hg3 : (gc_finish (collect (setObjExpression s o v tag0 ret) o)).gc_count ≠ 0 := by
    rw [gc_finish_gc_count, collect_gc_count, set_gc_count]
    exact wrapInt32_succ_ne_zero _ hg0 hg1
  have hq3 : (gc_finish (collect (setObjExpression s o v tag0 ret) o)).deleteQueue = ret :: s.deleteQueue := by
    rw [gc_finish_deleteQueue, hq2]
  have hlog4 := pass_log _ hw3 hg3
  rw [hq3, gc_finish_jvm] at hlog4
  simp only [hlog2, List.append_assoc] at hlog4
  have hnotq : ret ∉ s.deleteQueue := by
    intro hm
    have hre := hfresh (hinv.queueLive ret hm)
    by_cases ht : s.jvm.tags o = 0
    · rw [ht, tagToPtr_zero] at hre
      exact hret0 hre
    · exact hinv.queueNotTag ret hm o ht hre.symm
  have hrel14 : releases (newCalls (setObjExpression s o v tag0 ret) (gcWorker_pass (gc_finish (collect (setObjExpression s o v tag0 ret) o)))) = ret :: s.deleteQueue := by
    rw [newCalls, hlog4, List.drop_left]
    simp only [releases_append]
    split_ifs <;> simp [releases]
  have hcre14 : creations (newCalls (setObjExpression s o v tag0 ret) (gcWorker_pass (gc_finish (collect (setObjExpression s o v tag0 ret) o)))) = [] := by
    rw [newCalls, hlog4, List.drop_left]
    simp only [creations_append]
    split_ifs <;> simp [creations]
  rw [hlog1] at hlog4
  simp only [List.append_assoc] at hlog4
  have hrel04 : (releases (newCalls s (gcWorker_pass (gc_finish (collect (setObjExpression s o v tag0 ret) o))))).length
      = (if s.jvm.tags o = 0 then 0 else 1) + 1 + s.deleteQueue.length := by
    rw [newCalls, hlog4, List.drop_left]
    simp only [releases_append, List.cons_append, releases]
    split_ifs <;> simp [releases] <;> omega
  have hcre04 : (creations (newCalls s (gcWorker_pass (gc_finish (collect (setObjExpression s o v tag0 ret) o))))).length = 1 := by
    rw [newCalls, hlog4, List.drop_left]
    simp only [creations_append, List.cons_append, creations]
    split_ifs <;> simp [creations, hret0]
  refine ⟨?_, ?_, hq2, hrel14, ?_, hcre14, pass_deleteQueue _ hw3 hg3, ?_, ?_, ?_, ?_⟩
  · rw [htag1, tagToPtr_ptrToTag ret hret]
  · rw [newCalls, hlog1, List.drop_left]
    simp only [List.cons_append, creations, creations_append]
    split_ifs <;> simp [creations, hret0]
  · rw [hrel14, List.count_cons_self, List.count_eq_zero_of_not_mem hnotq]
  · rw [pass_globals _ hinv3 hw3 hg3, hq3]
    simp
  · exact (pass_inv _ hinv3).noDangling
  · rw [hrel04, hcre04]; omega
  · intro ht hq
    rw [hrel04, hcre04, hq]
    simp [ht]

theorem C3_no_leak_on_collection_witness :
    releases (newCalls (setObjExpression init 7 9 0 100)
        (gcWorker_pass (gc_finish (collect (setObjExpression init 7 9 0 100) 7)))) = [100] ∧
    100 ∉ (gcWorker_pass
        (gc_finish (collect (setObjExpression init 7 9 0 100) 7))).jvm.globals :=
  ⟨(C3_no_leak_on_collection init [] trivial rfl 7 9 100 0 rfl (by decide) (by decide)
      (by decide) (by decide) (by decide) (by decide) (by decide) (by decide)).2.2.2.1,
   (C3_no_leak_on_collection init [] trivial rfl 7 9 100 0 rfl (by decide) (by decide)
      (by decide) (by decide) (by decide) (by decide) (by decide) (by decide)).2.2.2.2.2.2.2.1⟩

end Tagger
